import Mathlib

/-!
# Verification of the cart-to-order subsystem

A shallow embedding of the order/cart/product services of the
`tienda-alimentacion-asiatica` backend
(`backend/app/services/order_service.py`, `cart_service.py`,
`product_service.py`, `utils/cache.py`), together with proofs of the
specification claims about them.

Modelling conventions:
* SQLAlchemy rows become Lean structures; the session/database becomes an
  explicit `DB` value threaded through each operation.
* Python `int` columns (`stock`, `quantity`) are `ℤ`; `float` money columns
  (`price`, `unit_price`, `subtotal`, `total_amount`) are `ℚ`, with Python's
  `round(x, 2)` modelled as exact half-even rounding to two decimals.
* `HTTPException` raises become `Except ApiError` results; the constructors
  carry exactly the data interpolated into the corresponding `detail`
  f-string in the source.
* ORM relationship traversal (`cart.items`, `order.items`, `item.product`)
  becomes a first-match lookup / filter over the corresponding table, which
  is faithful because the underlying columns are primary keys.
-/

namespace Shop

/-- The `OrderStatus` enum from `app/models/order.py`. -/
inductive OrderStatus where
  | pending
  | confirmed
  | processing
  | shipped
  | delivered
  | cancelled
deriving DecidableEq, Repr

/-- A row of the `products` table (the columns the subsystem reads). -/
structure Product where
  id : Nat
  name : String
  price : ℚ
  stock : ℤ
deriving DecidableEq, Repr

/-- A row of the `carts` table. -/
structure Cart where
  id : Nat
  user_id : String
deriving DecidableEq, Repr

/-- A row of the `cart_items` table. -/
structure CartItem where
  cart_id : Nat
  product_id : Nat
  quantity : ℤ
deriving DecidableEq, Repr

/-- A row of the `orders` table. -/
structure Order where
  id : Nat
  user_id : String
  status : OrderStatus
  total_amount : ℚ
  customer_name : String
  customer_email : String
  customer_phone : String
  shipping_address : String
  notes : Option String
deriving DecidableEq, Repr

/-- A row of the `order_items` table. -/
structure OrderItem where
  order_id : Nat
  product_id : Nat
  quantity : ℤ
  unit_price : ℚ
  subtotal : ℚ
deriving DecidableEq, Repr

/-- The relational state the subsystem reads and writes.  `nextOrderId` and
`nextCartId` model the autoincrement primary-key counters. -/
structure DB where
  products : List Product
  carts : List Cart
  cartItems : List CartItem
  orders : List Order
  orderItems : List OrderItem
  nextOrderId : Nat
  nextCartId : Nat
deriving DecidableEq, Repr

/-- The `HTTPException`s raised by the embedded services; each constructor
carries the data interpolated into the `detail` message of the source. -/
inductive ApiError where
  | cartNotFound (user_id : String)
  | productNotFound (product_id : Nat)
  | orderNotFound (order_id : Nat)
  | cartItemNotFound (product_id : Nat)
  | cartEmpty
  | forbidden
  | insufficientStockOrder (name : String) (available requested : ℤ)
  | insufficientStockAdd (available requested : ℤ)
  | insufficientStockAddExisting (available in_cart requested : ℤ)
  | cannotModifyCancelled
  | cannotChangeDelivered
  | alreadyCancelled
  | cannotCancelStage (stage : OrderStatus)
  | productRefMissing
deriving DecidableEq, Repr

/-- Embeds `ProductRepository.get_by_id` / the `product` relationship: first row of
`products` with the given primary key. -/
def find_product (db : DB) (product_id : Nat) : Option Product :=
  db.products.find? (fun p => p.id == product_id)

/-- Update the first element of a list satisfying `sel` (the ORM mutates the
single identity-mapped row matching a primary key). -/
def update_first {α : Type} (sel : α → Bool) (f : α → α) : List α → List α
  | [] => []
  | a :: as => if sel a then f a :: as else a :: update_first sel f as

/-- Performs `product.stock += d` on the row with primary key `product_id`. -/
def adjust_stock (ps : List Product) (product_id : Nat) (d : ℤ) : List Product :=
  update_first (fun p => p.id == product_id) (fun p => { p with stock := p.stock + d }) ps

/-- A loop of stock adjustments, one `(product_id, delta)` per iteration. -/
def adjust_many (ps : List Product) (l : List (Nat × ℤ)) : List Product :=
  l.foldl (fun acc x => adjust_stock acc x.1 x.2) ps

/-- The stock of the product row with key `product_id` (0 if absent). -/
def stockOfP (ps : List Product) (product_id : Nat) : ℤ :=
  match ps.find? (fun p => p.id == product_id) with
  | some p => p.stock
  | none => 0

/-- Current stock of a product in the database. -/
def stock_of (db : DB) (product_id : Nat) : ℤ :=
  stockOfP db.products product_id

/-- The price of the product row with key `product_id` (0 if absent). -/
def price_of (db : DB) (product_id : Nat) : ℚ :=
  match find_product db product_id with
  | some p => p.price
  | none => 0

/-- Python's `round` (half-to-even) on an exact rational, to an integer. -/
def round_half_even (q : ℚ) : ℤ :=
  let n : ℤ := ⌊q⌋
  let r : ℚ := q - n
  if r < 1/2 then n
  else if r = 1/2 then (if n % 2 = 0 then n else n + 1)
  else n + 1

/-- Python's `round(q, 2)` on an exact rational. -/
def py_round_2 (q : ℚ) : ℚ :=
  (round_half_even (q * 100) : ℚ) / 100

/-- The `CreateOrderFromCartRequest` schema (customer snapshot fields). -/
structure CreateOrderFromCartRequest where
  customer_name : String
  customer_email : String
  customer_phone : String
  shipping_address : String
  notes : Option String
deriving DecidableEq, Repr

/-- The per-item dictionaries accumulated in `order_items_data`
(`order_service.py` lines 61-84). -/
structure OrderItemData where
  product_id : Nat
  quantity : ℤ
  unit_price : ℚ
  subtotal : ℚ
deriving DecidableEq, Repr

/-- The validation loop of `OrderService.create_order_from_cart`
(lines 64-84): for each cart item check `product.stock >= quantity`, raising
`Stock insuficiente para (name). Disponible: (stock), solicitado: (quantity)`
on the first failure, and otherwise collect the order-item data with the
price snapshot.  A dangling product reference (impossible under the
foreign-key constraint) is reported as `productRefMissing`. -/
def validate_items (db : DB) : List CartItem → Except ApiError (List OrderItemData)
  | [] => .ok []
  | ci :: rest =>
    match find_product db ci.product_id with
    | none => .error .productRefMissing
    | some p =>
      if p.stock < ci.quantity then
        .error (.insufficientStockOrder p.name p.stock ci.quantity)
      else
        match validate_items db rest with
        | .error e => .error e
        | .ok ds =>
          .ok ({ product_id := p.id, quantity := ci.quantity, unit_price := p.price,
                 subtotal := (ci.quantity : ℚ) * p.price } :: ds)

/-- Embeds `OrderService.create_order_from_cart` (`order_service.py` lines 32-120):
load the user's cart (404 if absent), reject an empty cart (400), validate
stock and build the order-item data, create the pending `Order` with the
rounded total and the customer snapshot, bulk-insert the `OrderItem`s with
price snapshots, decrement each product's stock by the ordered quantity, and
delete the cart's items (the cart row survives).  The function performs no
cache operations: `order_service.py` does not import `app.utils.cache`. -/
def create_order_from_cart (db : DB) (user_id : String)
    (request : CreateOrderFromCartRequest) : Except ApiError (DB × Order) :=
  match db.carts.find? (fun c => c.user_id == user_id) with
  | none => .error (.cartNotFound user_id)
  | some cart =>
    let items := db.cartItems.filter (fun ci => ci.cart_id == cart.id)
    if items.isEmpty then .error .cartEmpty
    else
      match validate_items db items with
      | .error e => .error e
      | .ok order_items_data =>
        let total_amount : ℚ := (order_items_data.map (fun d => d.subtotal)).sum
        let order : Order :=
          { id := db.nextOrderId
            user_id := user_id
            status := .pending
            total_amount := py_round_2 total_amount
            customer_name := request.customer_name
            customer_email := request.customer_email
            customer_phone := request.customer_phone
            shipping_address := request.shipping_address
            notes := request.notes }
        let new_order_items : List OrderItem := order_items_data.map (fun d =>
          { order_id := order.id, product_id := d.product_id, quantity := d.quantity,
            unit_price := d.unit_price, subtotal := d.subtotal })
        let products' := adjust_many db.products
          (items.map (fun ci => (ci.product_id, -ci.quantity)))
        .ok ({ db with
                products := products'
                cartItems := db.cartItems.filter (fun ci => !(ci.cart_id == cart.id))
                orders := db.orders ++ [order]
                orderItems := db.orderItems ++ new_order_items
                nextOrderId := db.nextOrderId + 1 }, order)

/-- The `OrderUpdate` schema: every field optional (`None` means unset). -/
structure OrderUpdate where
  status : Option OrderStatus
  customer_name : Option String
  customer_email : Option String
  customer_phone : Option String
  shipping_address : Option String
  notes : Option String
deriving DecidableEq, Repr

/-- The `model_dump(exclude_unset=True, exclude=(status,))` + `setattr` loop
of `OrderService.update_order` (lines 250-252): overwrite exactly the set
customer fields. -/
def apply_update_fields (o : Order) (r : OrderUpdate) : Order :=
  { o with
      customer_name := r.customer_name.getD o.customer_name
      customer_email := r.customer_email.getD o.customer_email
      customer_phone := r.customer_phone.getD o.customer_phone
      shipping_address := r.shipping_address.getD o.shipping_address
      notes := match r.notes with | some s => some s | none => o.notes }

/-- The ownership test of `OrderService.update_order` (lines 221-227): a
caller with a `user_id` (a non-admin) who does not own the order is rejected
only when the request carries one of the four customer fields (`notes` and
`status` are not in the test). -/
def update_forbidden (order : Order) (request : OrderUpdate)
    (user_id : Option String) : Bool :=
  (match user_id with
   | some uid => order.user_id != uid
   | none => false) &&
  (request.customer_name.isSome || request.customer_email.isSome ||
   request.customer_phone.isSome || request.shipping_address.isSome)

/-- Embeds `OrderService.update_order` (`order_service.py` lines 198-258): 404 if
the order is absent; 403 for a non-owner sending customer fields; for a
requested status change, reject if the order is cancelled, or delivered and
the new status differs; otherwise apply the status change and the set
customer fields.  Note that no stock is touched, whatever the status
transition. -/
def update_order (db : DB) (order_id : Nat) (request : OrderUpdate)
    (user_id : Option String) : Except ApiError (DB × Order) :=
  match db.orders.find? (fun o => o.id == order_id) with
  | none => .error (.orderNotFound order_id)
  | some order =>
    if update_forbidden order request user_id then
      .error .forbidden
    else
      match request.status with
      | some new_status =>
        if order.status = .cancelled then
          .error .cannotModifyCancelled
        else if order.status = .delivered ∧ new_status ≠ .delivered then
          .error .cannotChangeDelivered
        else
          let order' := apply_update_fields { order with status := new_status } request
          .ok ({ db with
                  orders := update_first (fun o => o.id == order_id)
                    (fun _ => order') db.orders }, order')
      | none =>
        let order' := apply_update_fields order request
        .ok ({ db with
                orders := update_first (fun o => o.id == order_id)
                  (fun _ => order') db.orders }, order')

/-- The stock-restoration loop of `OrderService.cancel_order`
(lines 301-304): `product.stock += item.quantity` for every item of the
order. -/
def restore_stock (ps : List Product) (items : List OrderItem) : List Product :=
  adjust_many ps (items.map (fun oi => (oi.product_id, oi.quantity)))

/-- The ownership test shared by `cancel_order` (lines 282-286) and
`get_order`: reject when a `user_id` is supplied (non-admin) and differs
from the order's owner. -/
def owner_forbidden (order : Order) (user_id : Option String) : Bool :=
  match user_id with
  | some uid => order.user_id != uid
  | none => false

/-- Embeds `OrderService.cancel_order` (`order_service.py` lines 260-312): 404 if
absent, 403 for a non-owner, 400 if already cancelled (no re-restoration),
400 if shipped or delivered; otherwise restore every item's quantity to its
product's stock and set the status to cancelled. -/
def cancel_order (db : DB) (order_id : Nat) (user_id : Option String) :
    Except ApiError (DB × Order) :=
  match db.orders.find? (fun o => o.id == order_id) with
  | none => .error (.orderNotFound order_id)
  | some order =>
    if owner_forbidden order user_id then
      .error .forbidden
    else if order.status = .cancelled then
      .error .alreadyCancelled
    else if order.status = .shipped ∨ order.status = .delivered then
      .error (.cannotCancelStage order.status)
    else
      let items := db.orderItems.filter (fun oi => oi.order_id == order_id)
      let order' : Order := { order with status := .cancelled }
      .ok ({ db with
              products := restore_stock db.products items
              orders := update_first (fun o => o.id == order_id)
                (fun _ => order') db.orders }, order')

/-- The `AddToCartRequest` schema (`product_id > 0`, `quantity > 0`). -/
structure AddToCartRequest where
  product_id : Nat
  quantity : ℤ
deriving DecidableEq, Repr

/-- Embeds `CartService.get_or_create_cart` (`cart_service.py` lines 22-35): return
the user's cart, creating (and committing) a fresh one if absent. -/
def get_or_create_cart (db : DB) (user_id : String) : DB × Cart :=
  match db.carts.find? (fun c => c.user_id == user_id) with
  | some cart => (db, cart)
  | none =>
    let cart : Cart := { id := db.nextCartId, user_id := user_id }
    ({ db with carts := db.carts ++ [cart], nextCartId := db.nextCartId + 1 }, cart)

/-- Embeds `CartService.add_to_cart` (`cart_service.py` lines 59-121): 404 if the
product is absent; 400 `Stock insuficiente. Disponible: .., solicitado: ..`
if `stock < quantity`; then get-or-create the cart; if the product is
already in the cart, check the merged quantity against stock — failing with
the richer message `Disponible: .., en carrito: .., solicitado: ..` — and
overwrite the existing row's quantity with the sum; otherwise insert a new
row. -/
def add_to_cart (db : DB) (user_id : String) (request : AddToCartRequest) :
    Except ApiError DB :=
  match find_product db request.product_id with
  | none => .error (.productNotFound request.product_id)
  | some product =>
    if product.stock < request.quantity then
      .error (.insufficientStockAdd product.stock request.quantity)
    else
      let dc := get_or_create_cart db user_id
      let db1 := dc.1
      let cart := dc.2
      match db1.cartItems.find? (fun ci =>
          ci.cart_id == cart.id && ci.product_id == request.product_id) with
      | some existing_item =>
        let new_quantity := existing_item.quantity + request.quantity
        if product.stock < new_quantity then
          .error (.insufficientStockAddExisting product.stock
            existing_item.quantity request.quantity)
        else
          .ok { db1 with cartItems :=
            (update_first
              (fun ci => ci.cart_id == cart.id && ci.product_id == request.product_id)
              (fun ci => { ci with quantity := new_quantity }) db1.cartItems) }
      | none =>
        .ok { db1 with cartItems := db1.cartItems ++
          [{ cart_id := cart.id, product_id := request.product_id,
             quantity := request.quantity }] }

/-- An entry of the `added_items` / `out_of_stock_items` lists built by
`OrderService.reorder`. -/
structure ReorderItemInfo where
  name : String
  quantity : ℤ
deriving DecidableEq, Repr

/-- An entry of the `insufficient_stock_items` list built by
`OrderService.reorder`. -/
structure ReorderShortInfo where
  name : String
  ordered_quantity : ℤ
  available_quantity : ℤ
deriving DecidableEq, Repr

/-- The loop state of `OrderService.reorder` (lines 349-404). -/
structure ReorderAcc where
  cart_items : List CartItem
  added_items : List ReorderItemInfo
  out_of_stock_items : List ReorderItemInfo
  insufficient_stock_items : List ReorderShortInfo
deriving DecidableEq, Repr

/-- One iteration of the reorder loop (`order_service.py` lines 353-404):
skip a vanished product; record and skip a product with stock 0; cap the
requested quantity at the available stock; then merge into an existing cart
row clamping at the stock, or insert a new row. -/
def reorder_step (products : List Product) (cart_id : Nat)
    (acc : ReorderAcc) (oi : OrderItem) : ReorderAcc :=
  match products.find? (fun p => p.id == oi.product_id) with
  | none => acc
  | some product =>
    if product.stock = 0 then
      { acc with out_of_stock_items := acc.out_of_stock_items ++
          [{ name := product.name, quantity := oi.quantity }] }
    else
      let quantity := if product.stock < oi.quantity then product.stock else oi.quantity
      let insufficient := if product.stock < oi.quantity then
          acc.insufficient_stock_items ++
            [{ name := product.name, ordered_quantity := oi.quantity,
               available_quantity := product.stock }]
        else acc.insufficient_stock_items
      let cart_items' :=
        match acc.cart_items.find? (fun ci =>
            ci.cart_id == cart_id && ci.product_id == product.id) with
        | some existing_cart_item =>
          let new_quantity := min (existing_cart_item.quantity + quantity) product.stock
          update_first
            (fun ci => ci.cart_id == cart_id && ci.product_id == product.id)
            (fun ci => { ci with quantity := new_quantity }) acc.cart_items
        | none => acc.cart_items ++
            [{ cart_id := cart_id, product_id := product.id, quantity := quantity }]
      { acc with
          cart_items := cart_items'
          added_items := acc.added_items ++ [{ name := product.name, quantity := quantity }]
          insufficient_stock_items := insufficient }

/-- The dictionary returned by `OrderService.reorder`. -/
structure ReorderResult where
  success : Bool
  added_items : List ReorderItemInfo
  out_of_stock_items : List ReorderItemInfo
  insufficient_stock_items : List ReorderShortInfo
deriving DecidableEq, Repr

/-- Embeds `OrderService.reorder` (`order_service.py` lines 314-418): 404 if the
order is absent, 403 if the caller does not own it; get-or-create the cart;
run the reorder loop over the order's items; never raises for stock. -/
def reorder (db : DB) (order_id : Nat) (user_id : String) :
    Except ApiError (DB × ReorderResult) :=
  match db.orders.find? (fun o => o.id == order_id) with
  | none => .error (.orderNotFound order_id)
  | some order =>
    if order.user_id != user_id then .error .forbidden
    else
      let dc := get_or_create_cart db user_id
      let db1 := dc.1
      let cart := dc.2
      let items := db1.orderItems.filter (fun oi => oi.order_id == order_id)
      let acc := items.foldl (reorder_step db1.products cart.id)
        { cart_items := db1.cartItems, added_items := [],
          out_of_stock_items := [], insufficient_stock_items := [] }
      .ok ({ db1 with cartItems := acc.cart_items },
        { success := !acc.added_items.isEmpty
          added_items := acc.added_items
          out_of_stock_items := acc.out_of_stock_items
          insufficient_stock_items := acc.insufficient_stock_items })

/-! ## The product-detail cache (`utils/cache.py`, `product_service.py`)

The Redis store is modelled as an association list from keys to the cached
product snapshots (TTL expiry is not modelled: the claims concern reads
well inside the TTL window). -/

/-- The cache state: live key/snapshot pairs. -/
abbrev Cache : Type := List (String × Product)

/-- Embeds `get_from_cache`: first entry with the key. -/
def cache_get (cache : Cache) (key : String) : Option Product :=
  (List.find? (fun e => e.1 == key) cache).map (fun e => e.2)

/-- Embeds `set_in_cache` via Redis `SETEX`: overwrite the entry if the key is
live, insert it otherwise. -/
def cache_set (cache : Cache) (key : String) (value : Product) : Cache :=
  if (List.find? (fun e => e.1 == key) cache).isSome then
    update_first (fun e => e.1 == key) (fun e => (e.1, value)) cache
  else
    cache ++ [(key, value)]

/-- The key `get_cache_key("products", "detail", str(product_id))`. -/
def product_detail_key (product_id : Nat) : String :=
  "products:detail:" ++ toString product_id

/-- Embeds `ProductService.get_product_by_id` (`product_service.py` lines 64-86):
return the cached snapshot on a hit; on a miss read the database (404 if
absent) and populate the cache. -/
def get_product_by_id (db : DB) (cache : Cache) (product_id : Nat) :
    Except ApiError (Product × Cache) :=
  match cache_get cache (product_detail_key product_id) with
  | some cached => .ok (cached, cache)
  | none =>
    match find_product db product_id with
    | none => .error (.productNotFound product_id)
    | some product =>
      .ok (product, cache_set cache (product_detail_key product_id) product)

/-- The system-level view of `create_order_from_cart` with the cache
component made explicit.  `order_service.py` imports none of the cache
utilities and performs no cache call, so the cache passes through
unchanged on every path. -/
def create_order_from_cart_sys (db : DB) (cache : Cache) (user_id : String)
    (request : CreateOrderFromCartRequest) :
    Except ApiError (DB × Cache × Order) :=
  match create_order_from_cart db user_id request with
  | .error e => .error e
  | .ok (db', order) => .ok (db', cache, order)

/-! ## Operation sequences over the database -/

/-- The mutating operations of the claims' transition system. -/
inductive Op where
  | createOrder (user_id : String) (request : CreateOrderFromCartRequest)
  | updateOrder (order_id : Nat) (request : OrderUpdate) (user_id : Option String)
  | cancelOrder (order_id : Nat) (user_id : Option String)
  | addItem (user_id : String) (request : AddToCartRequest)
deriving Repr

/-- Run one operation; a raised `HTTPException` rolls the request back, so
an error leaves the database unchanged. -/
def apply_op (db : DB) : Op → DB
  | .createOrder uid req =>
    match create_order_from_cart db uid req with
    | .ok (db', _) => db'
    | .error _ => db
  | .updateOrder oid req uid =>
    match update_order db oid req uid with
    | .ok (db', _) => db'
    | .error _ => db
  | .cancelOrder oid uid =>
    match cancel_order db oid uid with
    | .ok (db', _) => db'
    | .error _ => db
  | .addItem uid req =>
    match add_to_cart db uid req with
    | .ok db' => db'
    | .error _ => db

/-- Run a finite sequence of operations. -/
def run_ops (db : DB) (ops : List Op) : DB :=
  ops.foldl apply_op db

/-- The status of the order with primary key `order_id`. -/
def order_status_of (db : DB) (order_id : Nat) : Option OrderStatus :=
  (db.orders.find? (fun o => o.id == order_id)).map (fun o => o.status)

/-- An order item counts as outstanding while its order is not cancelled. -/
def counts_item (db : DB) (oi : OrderItem) : Bool :=
  match order_status_of db oi.order_id with
  | some s => !(s == .cancelled)
  | none => false

/-- Total quantity of a product across order items of non-cancelled
orders. -/
def outstanding (db : DB) (product_id : Nat) : ℤ :=
  ((db.orderItems.filter (fun oi =>
      oi.product_id == product_id && counts_item db oi)).map
    (fun oi => oi.quantity)).sum

/-- The quantity the stock-conservation invariant asserts is constant:
current stock plus outstanding (non-cancelled) ordered quantity. -/
def conserved (db : DB) (product_id : Nat) : ℤ :=
  stock_of db product_id + outstanding db product_id

/-- Well-formedness maintained by the schema: order primary keys stay below
the autoincrement counter, order items reference existing orders (below the
counter) and existing products (`ondelete=RESTRICT`). -/
def WF (db : DB) : Prop :=
  (∀ o ∈ db.orders, o.id < db.nextOrderId) ∧
  (∀ oi ∈ db.orderItems, oi.order_id < db.nextOrderId) ∧
  (∀ oi ∈ db.orderItems, (find_product db oi.product_id).isSome = true)

instance : DecidablePred WF := fun db => by
  unfold WF
  infer_instance

/-! ## Two concurrent order creations (the stock race)

`create_order_from_cart` runs inside an ordinary ORM session: the product
row is loaded with the cart (`joinedload`, so its stock is a session-local
snapshot), the stock check at line 68 and the decrement at line 111 both
use that snapshot, and the computed value is written back at the commit on
line 116 — with no row lock and no conditional update.  Two concurrent
requests are modelled as two such load / check-compute-write sequences
interleaved by a schedule over the shared stock cell. -/

/-- The phase of one in-flight `create_order_from_cart` request for a
single product: not yet loaded, loaded with a session-local stock snapshot,
or finished (succeeded or failed with the insufficient-stock error). -/
inductive ReqPhase where
  | start
  | loaded (snapshot : ℤ)
  | done (succeeded : Bool)
deriving DecidableEq, Repr

/-- Advance one request by one step against the shared stock cell: first
step loads the snapshot, second step checks `snapshot < quantity` and on
success writes back `snapshot - quantity`. -/
def req_step (quantity : ℤ) (stock : ℤ) : ReqPhase → ℤ × ReqPhase
  | .start => (stock, .loaded stock)
  | .loaded snapshot =>
    if snapshot < quantity then (stock, .done false)
    else (snapshot - quantity, .done true)
  | .done b => (stock, .done b)

/-- Shared state of two concurrent order-creation requests for one
product. -/
structure RaceState where
  stock : ℤ
  r1 : ReqPhase
  r2 : ReqPhase
deriving DecidableEq, Repr

/-- Let request 1 (`false`) or request 2 (`true`) take its next step. -/
def race_step (q1 q2 : ℤ) (s : RaceState) : Bool → RaceState
  | false =>
    let sr := req_step q1 s.stock s.r1
    { s with stock := sr.1, r1 := sr.2 }
  | true =>
    let sr := req_step q2 s.stock s.r2
    { s with stock := sr.1, r2 := sr.2 }

/-- Run a schedule of interleaved steps of the two requests. -/
def run_race (q1 q2 : ℤ) (s : RaceState) (sched : List Bool) : RaceState :=
  sched.foldl (race_step q1 q2) s

/-- Units sold to a finished request. -/
def sold (quantity : ℤ) : ReqPhase → ℤ
  | .done true => quantity
  | _ => 0

/-- Total of the values attached to a key in a key/value list. -/
def sumFor (l : List (Nat × ℤ)) (pid : Nat) : ℤ :=
  ((l.filter (fun x => x.1 == pid)).map (fun x => x.2)).sum

/-! ## Key/quantity projections of the row lists -/

/-- The `(product_id, quantity)` pairs of a cart-item list. -/
def cart_pairs (l : List CartItem) : List (Nat × ℤ) :=
  l.map (fun ci => (ci.product_id, ci.quantity))

/-- The `(product_id, quantity)` pairs of an order-item list. -/
def oi_pairs (l : List OrderItem) : List (Nat × ℤ) :=
  l.map (fun oi => (oi.product_id, oi.quantity))

/-- The `(product_id, quantity)` pairs of an order-item-data list. -/
def d_pairs (ds : List OrderItemData) : List (Nat × ℤ) :=
  ds.map (fun d => (d.product_id, d.quantity))

/-- The restriction that singles out the one conservation-breaking
operation: an `update_order` request must not set the status to
`cancelled` (the code applies such an update without restoring stock). -/
def no_cancel_via_update : Op → Prop
  | .updateOrder _ req _ => req.status ≠ some .cancelled
  | _ => True

instance : DecidablePred no_cancel_via_update := fun op => by
  cases op <;> simp only [no_cancel_via_update] <;> infer_instance

deriving instance DecidableEq for Except

/-- Whether an embedded service call returned without raising. -/
def isOkE {ε α : Type} : Except ε α → Bool
  | .ok _ => true
  | .error _ => false

/-! ## Concrete scenarios from the specification -/

/-- Customer snapshot used by the concrete scenarios. -/
def reqEx : CreateOrderFromCartRequest :=
  { customer_name := "N", customer_email := "n at example.com",
    customer_phone := "600", shipping_address := "Calle 1", notes := none }

/-- The single user's cart row shared by the concrete scenarios. -/
def cartU : Cart := { id := 1, user_id := "u" }

/-- Spec example scenario 2: Product A has stock 1 but the cart requests 2. -/
def dbC2 : DB :=
  { products := [{ id := 1, name := "Product A", price := 10, stock := 1 },
                 { id := 2, name := "Product B", price := 5, stock := 3 }],
    carts := [cartU],
    cartItems := [{ cart_id := 1, product_id := 1, quantity := 2 },
                  { cart_id := 1, product_id := 2, quantity := 1 }],
    orders := [], orderItems := [], nextOrderId := 1, nextCartId := 2 }

/-- Spec example scenario 1: A (stock 5, price 10) qty 2 and
B (stock 3, price 5) qty 1 in the cart. -/
def dbC3 : DB :=
  { dbC2 with products := [{ id := 1, name := "Product A", price := 10, stock := 5 },
                           { id := 2, name := "Product B", price := 5, stock := 3 }] }

/-- One product with one unit of stock and a one-item cart requesting it. -/
def dbC4 : DB :=
  { products := [{ id := 1, name := "A", price := 10, stock := 1 }],
    carts := [cartU],
    cartItems := [{ cart_id := 1, product_id := 1, quantity := 1 }],
    orders := [], orderItems := [], nextOrderId := 1, nextCartId := 2 }

/-- An `update_order` request that only sets the status to `cancelled`. -/
def updCancel : OrderUpdate :=
  { status := some .cancelled, customer_name := none, customer_email := none,
    customer_phone := none, shipping_address := none, notes := none }

/-- Create the order, then drive its status to `cancelled` through
`update_order` (the path that skips stock restoration). -/
def opsC4 : List Op := [.createOrder "u" reqEx, .updateOrder 1 updCancel none]

/-- Create the order, then cancel it through `cancel_order`. -/
def opsC4w : List Op := [.createOrder "u" reqEx, .cancelOrder 1 (some "u")]

/-- A pending order with two items (quantities 3 and 1, spec scenario 4). -/
def ordC5 : Order :=
  { id := 1, user_id := "u", status := .pending, total_amount := 35,
    customer_name := "N", customer_email := "n at example.com",
    customer_phone := "600", shipping_address := "Calle 1", notes := none }

def dbC5 : DB :=
  { products := [{ id := 1, name := "A", price := 10, stock := 2 },
                 { id := 2, name := "B", price := 5, stock := 0 }],
    carts := [], cartItems := [],
    orders := [ordC5],
    orderItems := [{ order_id := 1, product_id := 1, quantity := 3,
                     unit_price := 10, subtotal := 30 },
                   { order_id := 1, product_id := 2, quantity := 1,
                     unit_price := 5, subtotal := 5 }],
    nextOrderId := 2, nextCartId := 1 }

/-- The same order, already cancelled. -/
def ordC6 : Order := { ordC5 with status := .cancelled }

def dbC6 : DB := { dbC5 with orders := [ordC6] }

/-- A customer-field-only update request. -/
def updC6 : OrderUpdate :=
  { status := none, customer_name := some "X", customer_email := none,
    customer_phone := none, shipping_address := none, notes := none }

/-- A status-only update request (to `pending`). -/
def updC6w : OrderUpdate :=
  { status := some .pending, customer_name := none, customer_email := none,
    customer_phone := none, shipping_address := none, notes := none }

/-- Product snapshot cached before the order is placed. -/
def pC7 : Product := { id := 1, name := "Product A", price := 10, stock := 5 }

def dbC7 : DB :=
  { products := [pC7], carts := [cartU],
    cartItems := [{ cart_id := 1, product_id := 1, quantity := 2 }],
    orders := [], orderItems := [], nextOrderId := 1, nextCartId := 2 }

/-- The cache holding the detail snapshot of product 1 (stock 5). -/
def cacheC7 : Cache := [(product_detail_key 1, pC7)]

/-- The pending order again, owned by user `u1`. -/
def ordC8 : Order := { ordC5 with user_id := "u1" }

def dbC8 : DB := { dbC5 with orders := [ordC8] }

/-- A status-only update request (to `confirmed`). -/
def updC8 : OrderUpdate := { updC6w with status := some .confirmed }

/-- Product with stock 3 already in the cart with quantity 2. -/
def dbC9 : DB :=
  { products := [{ id := 1, name := "A", price := 10, stock := 3 }],
    carts := [cartU],
    cartItems := [{ cart_id := 1, product_id := 1, quantity := 2 }],
    orders := [], orderItems := [], nextOrderId := 1, nextCartId := 2 }

/-- A delivered order whose item quantity (5) exceeds the current stock (3). -/
def ordC10 : Order := { ordC5 with status := .delivered }

def dbC10 : DB :=
  { products := [{ id := 1, name := "A", price := 10, stock := 3 }],
    carts := [cartU], cartItems := [],
    orders := [ordC10],
    orderItems := [{ order_id := 1, product_id := 1, quantity := 5,
                     unit_price := 10, subtotal := 50 }],
    nextOrderId := 2, nextCartId := 2 }


/-! ## Lemmas about list surgery -/

theorem update_first_of_none {α : Type} {sel : α → Bool} {f : α → α} {l : List α}
    (h : l.find? sel = none) : update_first sel f l = l := by
  induction l with
  | nil => rfl
  | cons a as ih =>
    cases hs : sel a with
    | true => rw [List.find?_cons, hs] at h; exact absurd h (by simp)
    | false =>
      rw [List.find?_cons, hs] at h
      simp only [update_first, hs]
      simp [ih h]

theorem mem_update_first {α : Type} {sel : α → Bool} {f : α → α} :
    ∀ {l : List α} {a : α}, a ∈ update_first sel f l →
      a ∈ l ∨ ∃ x ∈ l, sel x = true ∧ a = f x := by
  intro l
  induction l with
  | nil => intro a h; exact absurd h (List.not_mem_nil a)
  | cons b bs ih =>
    intro a h
    cases hb : sel b with
    | true =>
      simp only [update_first, hb, if_true, List.mem_cons] at h
      rcases h with h1 | h1
      · exact Or.inr ⟨b, List.mem_cons_self b bs, hb, h1⟩
      · exact Or.inl (List.mem_cons_of_mem b h1)
    | false =>
      simp only [update_first, hb, Bool.false_eq_true, if_false, List.mem_cons] at h
      rcases h with h1 | h1
      · exact Or.inl (h1 ▸ List.mem_cons_self b bs)
      · rcases ih h1 with h2 | ⟨x, hx, hsx, hax⟩
        · exact Or.inl (List.mem_cons_of_mem b h2)
        · exact Or.inr ⟨x, List.mem_cons_of_mem b hx, hsx, hax⟩

/-! ## Lemmas about stock adjustment -/

theorem find?_adjust_isSome (ps : List Product) (pid : Nat) (d : ℤ) (x : Nat) :
    ((adjust_stock ps pid d).find? (fun p => p.id == x)).isSome =
      (ps.find? (fun p => p.id == x)).isSome := by
  induction ps with
  | nil => rfl
  | cons p ps ih =>
    cases hp : (p.id == pid) with
    | true =>
      simp only [adjust_stock, update_first, hp, if_true]
      cases hx : (p.id == x) <;> simp [List.find?_cons, hx]
    | false =>
      simp only [adjust_stock, update_first, hp]
      cases hx : (p.id == x) with
      | true => simp [List.find?_cons, hx]
      | false =>
        simp only [Bool.false_eq_true, if_false, List.find?_cons, hx]
        exact ih

theorem stockOfP_adjust_same {ps : List Product} {pid : Nat} (d : ℤ)
    (h : (ps.find? (fun p => p.id == pid)).isSome = true) :
    stockOfP (adjust_stock ps pid d) pid = stockOfP ps pid + d := by
  induction ps with
  | nil => simp [List.find?] at h
  | cons p ps ih =>
    cases hp : (p.id == pid) with
    | true =>
      simp [adjust_stock, update_first, hp, stockOfP, List.find?_cons]
    | false =>
      rw [List.find?_cons, hp] at h
      simp only [adjust_stock, update_first, hp, Bool.false_eq_true, if_false]
      simp only [stockOfP, List.find?_cons, hp]
      exact ih h

theorem stockOfP_adjust_ne {ps : List Product} {pid x : Nat} (d : ℤ) (h : x ≠ pid) :
    stockOfP (adjust_stock ps pid d) x = stockOfP ps x := by
  induction ps with
  | nil => rfl
  | cons p ps ih =>
    cases hp : (p.id == pid) with
    | true =>
      have hpid : p.id = pid := by simpa using hp
      have hpx : (p.id == x) = false :=
        beq_eq_false_iff_ne.mpr (fun hh => h (hpid ▸ hh).symm)
      simp [adjust_stock, update_first, hp, stockOfP, List.find?_cons, hpx]
    | false =>
      simp only [adjust_stock, update_first, hp, Bool.false_eq_true, if_false]
      simp only [stockOfP, List.find?_cons]
      cases hx : (p.id == x) with
      | true => rfl
      | false => exact ih

theorem adjust_stock_of_none {ps : List Product} {pid : Nat} (d : ℤ)
    (h : ps.find? (fun p => p.id == pid) = none) :
    adjust_stock ps pid d = ps :=
  update_first_of_none h

theorem sumFor_nil (pid : Nat) : sumFor [] pid = 0 := rfl

theorem sumFor_cons (x : Nat × ℤ) (l : List (Nat × ℤ)) (pid : Nat) :
    sumFor (x :: l) pid =
      (if (x.1 == pid) = true then x.2 else 0) + sumFor l pid := by
  by_cases hx : (x.1 == pid) = true <;>
    simp [sumFor, List.filter_cons, hx]

theorem sumFor_append (a b : List (Nat × ℤ)) (pid : Nat) :
    sumFor (a ++ b) pid = sumFor a pid + sumFor b pid := by
  simp [sumFor, List.filter_append]

theorem sumFor_of_not_mem {l : List (Nat × ℤ)} {pid : Nat}
    (h : pid ∉ l.map (fun x => x.1)) : sumFor l pid = 0 := by
  induction l with
  | nil => rfl
  | cons x xs ih =>
    simp only [List.map_cons, List.mem_cons, not_or] at h
    have hx : (x.1 == pid) = false :=
      beq_eq_false_iff_ne.mpr (fun hh => h.1 hh.symm)
    rw [sumFor_cons, hx]
    simpa using ih h.2

theorem stockOfP_adjust_many {l : List (Nat × ℤ)} :
    ∀ {ps : List Product},
      (∀ x ∈ l, (ps.find? (fun p => p.id == x.1)).isSome = true) →
      ∀ pid, stockOfP (adjust_many ps l) pid = stockOfP ps pid + sumFor l pid := by
  induction l with
  | nil => intro ps _ pid; simp [adjust_many, sumFor_nil]
  | cons x xs ih =>
    intro ps h pid
    have hx := h x (List.mem_cons_self x xs)
    have hrest : ∀ y ∈ xs, ((adjust_stock ps x.1 x.2).find? (fun p => p.id == y.1)).isSome = true := by
      intro y hy
      rw [find?_adjust_isSome]
      exact h y (List.mem_cons_of_mem x hy)
    have step : adjust_many ps (x :: xs) = adjust_many (adjust_stock ps x.1 x.2) xs := rfl
    rw [step, ih hrest pid, sumFor_cons]
    by_cases hpid : pid = x.1
    · subst hpid
      rw [stockOfP_adjust_same x.2 hx]
      rw [beq_self_eq_true]
      simp only [if_true]
      ring
    · rw [stockOfP_adjust_ne x.2 hpid]
      have hx1 : (x.1 == pid) = false :=
        beq_eq_false_iff_ne.mpr (fun hh => hpid hh.symm)
      rw [hx1]
      simp only [Bool.false_eq_true, if_false]
      ring

theorem find?_adjust_many_isSome (l : List (Nat × ℤ)) :
    ∀ (ps : List Product) (x : Nat),
      ((adjust_many ps l).find? (fun p => p.id == x)).isSome =
        (ps.find? (fun p => p.id == x)).isSome := by
  induction l with
  | nil => intro ps x; rfl
  | cons y ys ih =>
    intro ps x
    have step : adjust_many ps (y :: ys) = adjust_many (adjust_stock ps y.1 y.2) ys := rfl
    rw [step, ih, find?_adjust_isSome]

theorem sumFor_cart_pairs_neg (items : List CartItem) (pid : Nat) :
    sumFor (items.map (fun ci => (ci.product_id, -ci.quantity))) pid =
      -sumFor (cart_pairs items) pid := by
  induction items with
  | nil => simp [cart_pairs, sumFor_nil]
  | cons ci rest ih =>
    simp only [List.map_cons, cart_pairs, sumFor_cons] at *
    cases hb : (ci.product_id == pid) with
    | true => simp [hb, ih, cart_pairs]; ring
    | false => simp [hb, ih, cart_pairs]

/-! ## Lemmas about the order-creation validation loop -/

theorem validate_items_ok_pairs {db : DB} :
    ∀ {l : List CartItem} {ds : List OrderItemData},
      validate_items db l = .ok ds → d_pairs ds = cart_pairs l := by
  intro l
  induction l with
  | nil =>
    intro ds h
    simp only [validate_items, Except.ok.injEq] at h
    simp [← h, d_pairs, cart_pairs]
  | cons ci rest ih =>
    intro ds h
    simp only [validate_items] at h
    cases hf : find_product db ci.product_id with
    | none => rw [hf] at h; cases h
    | some p =>
      rw [hf] at h
      simp only [] at h
      by_cases hs : p.stock < ci.quantity
      · rw [if_pos hs] at h; cases h
      · rw [if_neg hs] at h
        cases hv : validate_items db rest with
        | error e => rw [hv] at h; cases h
        | ok ds0 =>
          rw [hv] at h
          simp only [Except.ok.injEq] at h
          have hid : p.id = ci.product_id := by
            have := List.find?_some hf
            simpa using this
          rw [← h]
          simp [d_pairs, cart_pairs, hid] at *
          exact ih hv

theorem validate_items_ok_products {db : DB} :
    ∀ {l : List CartItem} {ds : List OrderItemData},
      validate_items db l = .ok ds →
      ∀ ci ∈ l, (find_product db ci.product_id).isSome = true := by
  intro l
  induction l with
  | nil => intro ds _ ci hci; exact absurd hci (List.not_mem_nil ci)
  | cons c rest ih =>
    intro ds h ci hci
    simp only [validate_items] at h
    cases hf : find_product db c.product_id with
    | none => rw [hf] at h; cases h
    | some p =>
      rw [hf] at h
      simp only [] at h
      by_cases hs : p.stock < c.quantity
      · rw [if_pos hs] at h; cases h
      · rw [if_neg hs] at h
        cases hv : validate_items db rest with
        | error e => rw [hv] at h; cases h
        | ok ds0 =>
          rcases List.mem_cons.mp hci with hc | hc
          · subst hc; simp [hf]
          · exact ih hv ci hc

theorem validate_items_ok_of {db : DB} :
    ∀ {l : List CartItem},
      (∀ ci ∈ l, ∃ p, find_product db ci.product_id = some p ∧ ci.quantity ≤ p.stock) →
      validate_items db l = .ok (l.map (fun ci =>
        { product_id := ci.product_id, quantity := ci.quantity,
          unit_price := price_of db ci.product_id,
          subtotal := (ci.quantity : ℚ) * price_of db ci.product_id })) := by
  intro l
  induction l with
  | nil => intro _; rfl
  | cons ci rest ih =>
    intro h
    rcases h ci (List.mem_cons_self ci rest) with ⟨p, hp, hle⟩
    have hid : p.id = ci.product_id := by
      have := List.find?_some hp
      simpa using this
    have hprice : price_of db ci.product_id = p.price := by
      simp [price_of, hp]
    simp only [validate_items, hp]
    rw [if_neg (not_lt.mpr hle)]
    rw [ih (fun x hx => h x (List.mem_cons_of_mem ci hx))]
    simp [hid, hprice]

theorem validate_items_err {db : DB} :
    ∀ {l : List CartItem},
      (∀ ci ∈ l, (find_product db ci.product_id).isSome = true) →
      (∃ ci ∈ l, ∃ p, find_product db ci.product_id = some p ∧ p.stock < ci.quantity) →
      ∃ ci ∈ l, ∃ p, find_product db ci.product_id = some p ∧ p.stock < ci.quantity ∧
        validate_items db l = .error (.insufficientStockOrder p.name p.stock ci.quantity) := by
  intro l
  induction l with
  | nil => intro _ hbad; rcases hbad with ⟨ci, hci, _⟩; exact absurd hci (List.not_mem_nil ci)
  | cons c rest ih =>
    intro hall hbad
    have hc := hall c (List.mem_cons_self c rest)
    rcases Option.isSome_iff_exists.mp hc with ⟨p, hp⟩
    by_cases hs : p.stock < c.quantity
    · refine ⟨c, List.mem_cons_self c rest, p, hp, hs, ?_⟩
      simp only [validate_items, hp]
      rw [if_pos hs]
    · have hbad' : ∃ ci ∈ rest, ∃ q, find_product db ci.product_id = some q ∧ q.stock < ci.quantity := by
        rcases hbad with ⟨ci, hci, q, hq, hqs⟩
        rcases List.mem_cons.mp hci with hc1 | hc1
        · subst hc1; rw [hp] at hq
          injection hq with hq
          subst hq
          exact absurd hqs hs
        · exact ⟨ci, hc1, q, hq, hqs⟩
      rcases ih (fun x hx => hall x (List.mem_cons_of_mem c hx)) hbad' with
        ⟨ci, hci, q, hq, hqs, herr⟩
      refine ⟨ci, List.mem_cons_of_mem c hci, q, hq, hqs, ?_⟩
      simp only [validate_items, hp]
      rw [if_neg hs, herr]

/-! ## Lemmas about order lookup after an in-place order update -/

theorem find?_update_order_self {l : List Order} {oid : Nat} {o' : Order}
    (hid : o'.id = oid)
    (h : (l.find? (fun x => x.id == oid)).isSome = true) :
    (update_first (fun x => x.id == oid) (fun _ => o') l).find?
      (fun x => x.id == oid) = some o' := by
  induction l with
  | nil => simp [List.find?] at h
  | cons b bs ih =>
    cases hb : (b.id == oid) with
    | true =>
      simp only [update_first, hb, if_true, List.find?_cons]
      have : (o'.id == oid) = true := by simp [hid]
      rw [this]
    | false =>
      rw [List.find?_cons, hb] at h
      simp only [update_first, hb, Bool.false_eq_true, if_false, List.find?_cons, hb]
      exact ih h

theorem find?_update_order_ne {l : List Order} {oid x : Nat} {o' : Order}
    (hid : o'.id = oid) (hne : x ≠ oid) :
    (update_first (fun y => y.id == oid) (fun _ => o') l).find? (fun y => y.id == x) =
      l.find? (fun y => y.id == x) := by
  induction l with
  | nil => rfl
  | cons b bs ih =>
    cases hb : (b.id == oid) with
    | true =>
      have hbid : b.id = oid := by simpa using hb
      have hbx : (b.id == x) = false :=
        beq_eq_false_iff_ne.mpr (fun hh => hne ((hbid ▸ hh).symm))
      have hox : (o'.id == x) = false :=
        beq_eq_false_iff_ne.mpr (fun hh => hne ((hid ▸ hh).symm))
      simp [update_first, hb, List.find?_cons, hbx, hox]
    | false =>
      simp only [update_first, hb, Bool.false_eq_true, if_false, List.find?_cons]
      cases hx : (b.id == x) with
      | true => rfl
      | false => exact ih

/-! ## Lemmas about the outstanding-quantity sum -/

theorem oi_pairs_cons (x : OrderItem) (l : List OrderItem) :
    oi_pairs (x :: l) = (x.product_id, x.quantity) :: oi_pairs l := rfl

theorem filter_and_sum (pid : Nat) (c : OrderItem → Bool) (l : List OrderItem) :
    ((l.filter (fun oi => oi.product_id == pid && c oi)).map (fun oi => oi.quantity)).sum =
      sumFor (oi_pairs (l.filter c)) pid := by
  induction l with
  | nil => rfl
  | cons oi rest ih =>
    cases hc : c oi with
    | true =>
      cases hb : (oi.product_id == pid) with
      | true =>
        simp only [List.filter_cons, hc, hb, Bool.and_true, if_true]
        simp only [List.map_cons, List.sum_cons, oi_pairs, sumFor_cons, hb, if_true]
        rw [ih]
        rfl
      | false =>
        simp only [List.filter_cons, hc, hb, Bool.false_and, Bool.false_eq_true, if_false, if_true]
        simp only [oi_pairs, List.map_cons, sumFor_cons, hb, Bool.false_eq_true, if_false]
        rw [ih]
        simp [oi_pairs]
    | false =>
      simp only [List.filter_cons, hc, Bool.and_false, Bool.false_eq_true, if_false]
      exact ih

theorem outstanding_eq (db : DB) (pid : Nat) :
    outstanding db pid =
      sumFor (oi_pairs (db.orderItems.filter (counts_item db))) pid :=
  filter_and_sum pid (counts_item db) db.orderItems

theorem sumFor_filter_congr {l : List OrderItem} {c c' : OrderItem → Bool}
    (h : ∀ oi ∈ l, c oi = c' oi) (pid : Nat) :
    sumFor (oi_pairs (l.filter c)) pid = sumFor (oi_pairs (l.filter c')) pid := by
  rw [List.filter_congr h]

theorem sumFor_filter_split {pid oid : Nat} :
    ∀ {l : List OrderItem} {c c' : OrderItem → Bool},
      (∀ oi ∈ l, (oi.order_id = oid → c oi = true ∧ c' oi = false) ∧
                 (oi.order_id ≠ oid → c' oi = c oi)) →
      sumFor (oi_pairs (l.filter c)) pid =
        sumFor (oi_pairs (l.filter c')) pid +
        sumFor (oi_pairs (l.filter (fun oi => oi.order_id == oid))) pid := by
  intro l
  induction l with
  | nil => intro c c' _; simp [oi_pairs, sumFor_nil]
  | cons oi rest ih =>
    intro c c' h
    have hoi := h oi (List.mem_cons_self oi rest)
    have hrest := fun x hx => h x (List.mem_cons_of_mem oi hx)
    by_cases hb : oi.order_id = oid
    · have hc : c oi = true := (hoi.1 hb).1
      have hc' : c' oi = false := (hoi.1 hb).2
      have hbeq : (oi.order_id == oid) = true := by simp [hb]
      simp only [List.filter_cons, hc, hc', hbeq, if_true, Bool.false_eq_true, if_false]
      simp only [oi_pairs_cons, sumFor_cons]
      rw [ih hrest]
      ring
    · have hc' : c' oi = c oi := hoi.2 hb
      have hbeq : (oi.order_id == oid) = false := beq_eq_false_iff_ne.mpr hb
      cases hc : c oi with
      | true =>
        rw [hc] at hc'
        simp only [List.filter_cons, hc, hc', hbeq, if_true, Bool.false_eq_true, if_false]
        simp only [oi_pairs_cons, sumFor_cons]
        rw [ih hrest]
        ring
      | false =>
        rw [hc] at hc'
        simp only [List.filter_cons, hc, hc', hbeq, Bool.false_eq_true, if_false]
        exact ih hrest

/-! ## Shape of a successful order creation -/

theorem create_ok_shape {db : DB} {uid : String} {req : CreateOrderFromCartRequest}
    {db' : DB} {order : Order}
    (h : create_order_from_cart db uid req = .ok (db', order)) :
    ∃ cart ds,
      db.carts.find? (fun c => c.user_id == uid) = some cart ∧
      validate_items db (db.cartItems.filter (fun ci => ci.cart_id == cart.id)) = .ok ds ∧
      order = { id := db.nextOrderId, user_id := uid, status := .pending,
                total_amount := py_round_2 ((ds.map (fun d => d.subtotal)).sum),
                customer_name := req.customer_name, customer_email := req.customer_email,
                customer_phone := req.customer_phone,
                shipping_address := req.shipping_address, notes := req.notes } ∧
      db' = { db with
              products := adjust_many db.products
                ((db.cartItems.filter (fun ci => ci.cart_id == cart.id)).map
                  (fun ci => (ci.product_id, -ci.quantity)))
              cartItems := db.cartItems.filter (fun ci => !(ci.cart_id == cart.id))
              orders := db.orders ++ [order]
              orderItems := db.orderItems ++ ds.map (fun d =>
                { order_id := db.nextOrderId, product_id := d.product_id,
                  quantity := d.quantity, unit_price := d.unit_price,
                  subtotal := d.subtotal })
              nextOrderId := db.nextOrderId + 1 } := by
  unfold create_order_from_cart at h
  cases hfc : db.carts.find? (fun c => c.user_id == uid) with
  | none => rw [hfc] at h; cases h
  | some cart =>
    rw [hfc] at h
    simp only [] at h
    by_cases hE : (db.cartItems.filter (fun ci => ci.cart_id == cart.id)).isEmpty = true
    · rw [if_pos hE] at h; cases h
    · rw [if_neg hE] at h
      cases hv : validate_items db (db.cartItems.filter (fun ci => ci.cart_id == cart.id)) with
      | error e => rw [hv] at h; cases h
      | ok ds =>
        rw [hv] at h
        simp only [Except.ok.injEq, Prod.mk.injEq] at h
        refine ⟨cart, ds, rfl, hv, h.2.symm, ?_⟩
        rw [← h.1, ← h.2]

theorem apply_update_fields_id (o : Order) (r : OrderUpdate) :
    (apply_update_fields o r).id = o.id := rfl

theorem apply_update_fields_status (o : Order) (r : OrderUpdate) :
    (apply_update_fields o r).status = o.status := rfl

/-! ## Shape of a successful order update / cancellation -/

theorem update_ok_shape {db : DB} {oid : Nat} {req : OrderUpdate} {uid : Option String}
    {db' : DB} {o' : Order}
    (h : update_order db oid req uid = .ok (db', o')) :
    ∃ order, db.orders.find? (fun o => o.id == oid) = some order ∧
      update_forbidden order req uid = false ∧
      db' = { db with orders := update_first (fun o => o.id == oid) (fun _ => o') db.orders } ∧
      ((∃ s, req.status = some s ∧ order.status ≠ .cancelled ∧
          ¬(order.status = .delivered ∧ s ≠ .delivered) ∧
          o' = apply_update_fields { order with status := s } req) ∨
       (req.status = none ∧ o' = apply_update_fields order req)) := by
  unfold update_order at h
  cases hfo : db.orders.find? (fun o => o.id == oid) with
  | none => rw [hfo] at h; cases h
  | some order =>
    rw [hfo] at h
    simp only [] at h
    by_cases hforb : update_forbidden order req uid = true
    · rw [if_pos hforb] at h; cases h
    · rw [if_neg hforb] at h
      cases hst : req.status with
      | none =>
        rw [hst] at h
        simp only [Except.ok.injEq, Prod.mk.injEq] at h
        refine ⟨order, rfl, Bool.not_eq_true _ ▸ hforb, ?_, Or.inr ⟨rfl, h.2.symm⟩⟩
        rw [← h.1, ← h.2]
      | some s =>
        rw [hst] at h
        simp only [] at h
        by_cases hcanc : order.status = OrderStatus.cancelled
        · rw [if_pos hcanc] at h; cases h
        · rw [if_neg hcanc] at h
          by_cases hdel : order.status = OrderStatus.delivered ∧ s ≠ OrderStatus.delivered
          · rw [if_pos hdel] at h; cases h
          · rw [if_neg hdel] at h
            simp only [Except.ok.injEq, Prod.mk.injEq] at h
            refine ⟨order, rfl, Bool.not_eq_true _ ▸ hforb, ?_,
              Or.inl ⟨s, rfl, hcanc, hdel, h.2.symm⟩⟩
            rw [← h.1, ← h.2]

theorem cancel_ok_shape {db : DB} {oid : Nat} {uid : Option String}
    {db' : DB} {o' : Order}
    (h : cancel_order db oid uid = .ok (db', o')) :
    ∃ order, db.orders.find? (fun o => o.id == oid) = some order ∧
      owner_forbidden order uid = false ∧
      order.status ≠ .cancelled ∧
      ¬(order.status = .shipped ∨ order.status = .delivered) ∧
      o' = { order with status := .cancelled } ∧
      db' = { db with
              products := restore_stock db.products
                (db.orderItems.filter (fun oi => oi.order_id == oid))
              orders := update_first (fun o => o.id == oid) (fun _ => o') db.orders } := by
  unfold cancel_order at h
  cases hfo : db.orders.find? (fun o => o.id == oid) with
  | none => rw [hfo] at h; cases h
  | some order =>
    rw [hfo] at h
    simp only [] at h
    by_cases hforb : owner_forbidden order uid = true
    · rw [if_pos hforb] at h; cases h
    · rw [if_neg hforb] at h
      by_cases hcanc : order.status = OrderStatus.cancelled
      · rw [if_pos hcanc] at h; cases h
      · rw [if_neg hcanc] at h
        by_cases hsd : order.status = OrderStatus.shipped ∨ order.status = OrderStatus.delivered
        · rw [if_pos hsd] at h; cases h
        · rw [if_neg hsd] at h
          simp only [Except.ok.injEq, Prod.mk.injEq] at h
          refine ⟨order, rfl, Bool.not_eq_true _ ▸ hforb, hcanc, hsd, h.2.symm, ?_⟩
          rw [← h.1, ← h.2]

/-! ## Conservation of stock plus outstanding quantity, per operation -/

theorem counts_item_of_find_some {db : DB} {oi : OrderItem} {o : Order}
    (h : db.orders.find? (fun x => x.id == oi.order_id) = some o) :
    counts_item db oi = !(o.status == .cancelled) := by
  simp [counts_item, order_status_of, h]

theorem counts_item_of_find_none {db : DB} {oi : OrderItem}
    (h : db.orders.find? (fun x => x.id == oi.order_id) = none) :
    counts_item db oi = false := by
  simp [counts_item, order_status_of, h]

theorem conserved_create {db : DB} {uid : String} {req : CreateOrderFromCartRequest}
    {db' : DB} {order : Order} (hwf : WF db)
    (h : create_order_from_cart db uid req = .ok (db', order)) (pid : Nat) :
    conserved db' pid = conserved db pid := by
  rcases create_ok_shape h with ⟨cart, ds, hfc, hv, horder, hdb⟩
  rcases hwf with ⟨hwf1, hwf2, _⟩
  have hpairs := validate_items_ok_pairs hv
  have hprods := validate_items_ok_products hv
  -- the stock side: decremented by the cart's total for this product
  have hstock : stock_of db' pid =
      stock_of db pid -
        sumFor (cart_pairs (db.cartItems.filter (fun ci => ci.cart_id == cart.id))) pid := by
    rw [hdb]
    show stockOfP (adjust_many db.products _) pid = _
    rw [stockOfP_adjust_many ?pre pid, sumFor_cart_pairs_neg]
    · show stock_of db pid + _ = _
      ring
    case pre =>
      intro x hx
      rcases List.mem_map.mp hx with ⟨ci, hci, hxeq⟩
      have := hprods ci hci
      rw [← hxeq]
      exact this
  -- the outstanding side: increased by the same total
  have hout : outstanding db' pid =
      outstanding db pid +
        sumFor (cart_pairs (db.cartItems.filter (fun ci => ci.cart_id == cart.id))) pid := by
    rw [outstanding_eq db', outstanding_eq db]
    have hitems : db'.orderItems = db.orderItems ++ ds.map (fun d =>
        { order_id := db.nextOrderId, product_id := d.product_id,
          quantity := d.quantity, unit_price := d.unit_price,
          subtotal := d.subtotal }) := by rw [hdb]
    have horders : db'.orders = db.orders ++ [order] := by rw [hdb]
    -- old order items keep their counted status
    have hold : ∀ oi ∈ db.orderItems, counts_item db' oi = counts_item db oi := by
      intro oi hoi
      have hfind : db'.orders.find? (fun x => x.id == oi.order_id) =
          db.orders.find? (fun x => x.id == oi.order_id) := by
        rw [horders, List.find?_append]
        cases hf : db.orders.find? (fun x => x.id == oi.order_id) with
        | some o => rfl
        | none =>
          have hne : (order.id == oi.order_id) = false := by
            have hlt : oi.order_id < db.nextOrderId := hwf2 oi hoi
            have : order.id = db.nextOrderId := by rw [horder]
            rw [this]
            exact beq_eq_false_iff_ne.mpr (fun hh => absurd (hh ▸ hlt) (lt_irrefl _))
          simp [List.find?, hne]
      cases hf : db.orders.find? (fun x => x.id == oi.order_id) with
      | some o =>
        rw [counts_item_of_find_some (hfind.trans hf), counts_item_of_find_some hf]
      | none =>
        rw [counts_item_of_find_none (hfind.trans hf), counts_item_of_find_none hf]
    -- fresh order items are counted: the new order is pending
    have hnew : ∀ oi ∈ ds.map (fun d =>
        ({ order_id := db.nextOrderId, product_id := d.product_id,
           quantity := d.quantity, unit_price := d.unit_price,
           subtotal := d.subtotal } : OrderItem)), counts_item db' oi = true := by
      intro oi hoi
      rcases List.mem_map.mp hoi with ⟨d, _, hdeq⟩
      have hoid : oi.order_id = db.nextOrderId := by rw [← hdeq]
      have hfind : db'.orders.find? (fun x => x.id == oi.order_id) = some order := by
        rw [horders, List.find?_append]
        have hnone : db.orders.find? (fun x => x.id == oi.order_id) = none := by
          rw [List.find?_eq_none]
          intro o ho
          have hlt : o.id < db.nextOrderId := hwf1 o ho
          rw [hoid]
          simp only [beq_iff_eq]
          exact fun hh => absurd (hh ▸ hlt) (lt_irrefl _)
        rw [hnone]
        have hyes : (order.id == oi.order_id) = true := by
          rw [hoid]
          have : order.id = db.nextOrderId := by rw [horder]
          simp [this]
        simp [List.find?, hyes]
      rw [counts_item_of_find_some hfind]
      have : order.status = .pending := by rw [horder]
      rw [this]
      rfl
    rw [hitems, List.filter_append]
    rw [List.filter_congr hold]
    rw [List.filter_eq_self.mpr hnew]
    rw [show oi_pairs ((db.orderItems.filter (counts_item db)) ++ ds.map (fun d =>
        ({ order_id := db.nextOrderId, product_id := d.product_id,
           quantity := d.quantity, unit_price := d.unit_price,
           subtotal := d.subtotal } : OrderItem))) =
        oi_pairs (db.orderItems.filter (counts_item db)) ++ oi_pairs (ds.map (fun d =>
        ({ order_id := db.nextOrderId, product_id := d.product_id,
           quantity := d.quantity, unit_price := d.unit_price,
           subtotal := d.subtotal } : OrderItem))) from List.map_append _ _ _]
    rw [sumFor_append]
    have hnewpairs : oi_pairs (ds.map (fun d =>
        ({ order_id := db.nextOrderId, product_id := d.product_id,
           quantity := d.quantity, unit_price := d.unit_price,
           subtotal := d.subtotal } : OrderItem))) = d_pairs ds := by
      simp only [oi_pairs, d_pairs, List.map_map]
      rfl
    rw [hnewpairs, hpairs]
  show stock_of db' pid + outstanding db' pid = stock_of db pid + outstanding db pid
  rw [hstock, hout]
  ring

theorem WF_create {db : DB} {uid : String} {req : CreateOrderFromCartRequest}
    {db' : DB} {order : Order} (hwf : WF db)
    (h : create_order_from_cart db uid req = .ok (db', order)) : WF db' := by
  rcases create_ok_shape h with ⟨cart, ds, hfc, hv, horder, hdb⟩
  rcases hwf with ⟨hwf1, hwf2, hwf3⟩
  have hpairs := validate_items_ok_pairs hv
  have hprods := validate_items_ok_products hv
  have hoid : order.id = db.nextOrderId := by rw [horder]
  have hnext : db'.nextOrderId = db.nextOrderId + 1 := by rw [hdb]
  refine ⟨?_, ?_, ?_⟩
  · intro o ho
    rw [hdb] at ho
    rw [hnext]
    rcases List.mem_append.mp ho with ho1 | ho1
    · exact Nat.lt_succ_of_lt (hwf1 o ho1)
    · rcases List.mem_singleton.mp ho1 with rfl
      rw [hoid]
      exact Nat.lt_succ_self _
  · intro oi hoi
    rw [hdb] at hoi
    rw [hnext]
    rcases List.mem_append.mp hoi with ho1 | ho1
    · exact Nat.lt_succ_of_lt (hwf2 oi ho1)
    · rcases List.mem_map.mp ho1 with ⟨d, _, hdeq⟩
      have : oi.order_id = db.nextOrderId := by rw [← hdeq]
      rw [this]
      exact Nat.lt_succ_self _
  · intro oi hoi
    have hfp : (find_product db' oi.product_id).isSome = (find_product db oi.product_id).isSome := by
      show (db'.products.find? _).isSome = _
      rw [hdb]
      exact find?_adjust_many_isSome _ _ _
    rw [hfp]
    rw [hdb] at hoi
    rcases List.mem_append.mp hoi with ho1 | ho1
    · exact hwf3 oi ho1
    · rcases List.mem_map.mp ho1 with ⟨d, hd, hdeq⟩
      have hmem : (d.product_id, d.quantity) ∈ d_pairs ds :=
        List.mem_map.mpr ⟨d, hd, rfl⟩
      rw [hpairs] at hmem
      rcases List.mem_map.mp hmem with ⟨ci, hci, hcieq⟩
      have hpidm : oi.product_id = ci.product_id := by
        rw [← hdeq]
        show d.product_id = ci.product_id
        have := congrArg Prod.fst hcieq
        simpa using this.symm
      rw [hpidm]
      exact hprods ci hci

theorem conserved_cancel {db : DB} {oid : Nat} {uid : Option String}
    {db' : DB} {o' : Order} (hwf : WF db)
    (h : cancel_order db oid uid = .ok (db', o')) (pid : Nat) :
    conserved db' pid = conserved db pid := by
  rcases cancel_ok_shape h with ⟨order, hfo, hforb, hcanc, hsd, ho', hdb⟩
  rcases hwf with ⟨_, _, hwf3⟩
  have hordid : order.id = oid := by
    have := List.find?_some hfo
    simpa using this
  have hoid' : o'.id = oid := by rw [ho']; exact hordid
  -- the stock side: increased by the order's total for this product
  have hstock : stock_of db' pid =
      stock_of db pid +
        sumFor (oi_pairs (db.orderItems.filter (fun oi => oi.order_id == oid))) pid := by
    rw [hdb]
    show stockOfP (restore_stock db.products _) pid = _
    have hrs : restore_stock db.products (db.orderItems.filter (fun oi => oi.order_id == oid)) =
        adjust_many db.products
          (oi_pairs (db.orderItems.filter (fun oi => oi.order_id == oid))) := rfl
    rw [hrs]
    rw [stockOfP_adjust_many ?pre pid]
    · rfl
    case pre =>
      intro x hx
      rcases List.mem_map.mp hx with ⟨oi, hoi, hxeq⟩
      have := hwf3 oi (List.mem_of_mem_filter hoi)
      rw [← hxeq]
      exact this
  -- the outstanding side: decreased by the same total
  have hout : outstanding db' pid =
      outstanding db pid -
        sumFor (oi_pairs (db.orderItems.filter (fun oi => oi.order_id == oid))) pid := by
    rw [outstanding_eq db', outstanding_eq db]
    have horders : db'.orders =
        update_first (fun o => o.id == oid) (fun _ => o') db.orders := by rw [hdb]
    have hitems : db'.orderItems = db.orderItems := by rw [hdb]
    have hsplit :
        sumFor (oi_pairs (db.orderItems.filter (counts_item db))) pid =
        sumFor (oi_pairs (db.orderItems.filter (counts_item db'))) pid +
        sumFor (oi_pairs (db.orderItems.filter (fun oi => oi.order_id == oid))) pid := by
      refine sumFor_filter_split (fun oi _ => ⟨?_, ?_⟩)
      · intro hb
        constructor
        · have hfind : db.orders.find? (fun x => x.id == oi.order_id) = some order := by
            rw [hb]; exact hfo
          rw [counts_item_of_find_some hfind]
          simp [beq_eq_false_iff_ne.mpr hcanc]
        · have hfind : db'.orders.find? (fun x => x.id == oi.order_id) = some o' := by
            rw [horders, hb]
            exact find?_update_order_self hoid' (by rw [hfo]; rfl)
          rw [counts_item_of_find_some hfind]
          have : o'.status = .cancelled := by rw [ho']
          simp [this]
      · intro hb
        have hfind : db'.orders.find? (fun x => x.id == oi.order_id) =
            db.orders.find? (fun x => x.id == oi.order_id) := by
          rw [horders]
          exact find?_update_order_ne hoid' hb
        cases hf : db.orders.find? (fun x => x.id == oi.order_id) with
        | some o =>
          rw [counts_item_of_find_some (hfind.trans hf), counts_item_of_find_some hf]
        | none =>
          rw [counts_item_of_find_none (hfind.trans hf), counts_item_of_find_none hf]
    rw [hitems]
    omega
  show stock_of db' pid + outstanding db' pid = stock_of db pid + outstanding db pid
  rw [hstock, hout]
  ring

theorem WF_cancel {db : DB} {oid : Nat} {uid : Option String}
    {db' : DB} {o' : Order} (hwf : WF db)
    (h : cancel_order db oid uid = .ok (db', o')) : WF db' := by
  rcases cancel_ok_shape h with ⟨order, hfo, hforb, hcanc, hsd, ho', hdb⟩
  rcases hwf with ⟨hwf1, hwf2, hwf3⟩
  have hordid : order.id = oid := by
    have := List.find?_some hfo
    simpa using this
  have hordmem : order ∈ db.orders := List.mem_of_find?_eq_some hfo
  have hnext : db'.nextOrderId = db.nextOrderId := by rw [hdb]
  have hitems : db'.orderItems = db.orderItems := by rw [hdb]
  refine ⟨?_, ?_, ?_⟩
  · intro o ho
    rw [hdb] at ho
    rw [hnext]
    rcases mem_update_first ho with ho1 | ⟨x, hx, _, hoeq⟩
    · exact hwf1 o ho1
    · rw [hoeq, ho']
      show order.id < db.nextOrderId
      exact hwf1 order hordmem
  · intro oi hoi
    rw [hitems] at hoi
    rw [hnext]
    exact hwf2 oi hoi
  · intro oi hoi
    rw [hitems] at hoi
    have hfp : (find_product db' oi.product_id).isSome = (find_product db oi.product_id).isSome := by
      show (db'.products.find? _).isSome = _
      rw [hdb]
      exact find?_adjust_many_isSome _ _ _
    rw [hfp]
    exact hwf3 oi hoi

theorem conserved_update {db : DB} {oid : Nat} {req : OrderUpdate} {uid : Option String}
    {db' : DB} {o' : Order}
    (hreq : req.status ≠ some .cancelled)
    (h : update_order db oid req uid = .ok (db', o')) (pid : Nat) :
    conserved db' pid = conserved db pid := by
  rcases update_ok_shape h with ⟨order, hfo, hforb, hdb, hcase⟩
  have hordid : order.id = oid := by
    have := List.find?_some hfo
    simpa using this
  have hoid' : o'.id = oid := by
    rcases hcase with ⟨s, _, _, _, ho'⟩ | ⟨_, ho'⟩ <;>
      rw [ho', apply_update_fields_id] <;> exact hordid
  have hstatus : (o'.status == OrderStatus.cancelled) = (order.status == OrderStatus.cancelled) := by
    rcases hcase with ⟨s, hs, hnc, _, ho'⟩ | ⟨_, ho'⟩
    · have h1 : o'.status = s := by rw [ho', apply_update_fields_status]
      have h2 : s ≠ OrderStatus.cancelled := by
        intro hh
        rw [hh] at hs
        exact hreq hs
      rw [h1, beq_eq_false_iff_ne.mpr h2, beq_eq_false_iff_ne.mpr hnc]
    · have h1 : o'.status = order.status := by rw [ho', apply_update_fields_status]
      rw [h1]
  have horders : db'.orders =
      update_first (fun o => o.id == oid) (fun _ => o') db.orders := by rw [hdb]
  have hitems : db'.orderItems = db.orderItems := by rw [hdb]
  have hprod : db'.products = db.products := by rw [hdb]
  have hcounts : ∀ oi ∈ db.orderItems, counts_item db' oi = counts_item db oi := by
    intro oi _
    by_cases hb : oi.order_id = oid
    · have hfind : db.orders.find? (fun x => x.id == oi.order_id) = some order := by
        rw [hb]; exact hfo
      have hfind' : db'.orders.find? (fun x => x.id == oi.order_id) = some o' := by
        rw [horders, hb]
        exact find?_update_order_self hoid' (by rw [hfo]; rfl)
      rw [counts_item_of_find_some hfind', counts_item_of_find_some hfind, hstatus]
    · have hfind : db'.orders.find? (fun x => x.id == oi.order_id) =
          db.orders.find? (fun x => x.id == oi.order_id) := by
        rw [horders]
        exact find?_update_order_ne hoid' hb
      cases hf : db.orders.find? (fun x => x.id == oi.order_id) with
      | some o =>
        rw [counts_item_of_find_some (hfind.trans hf), counts_item_of_find_some hf]
      | none =>
        rw [counts_item_of_find_none (hfind.trans hf), counts_item_of_find_none hf]
  have hout : outstanding db' pid = outstanding db pid := by
    rw [outstanding_eq db', outstanding_eq db, hitems]
    exact sumFor_filter_congr hcounts pid
  show stock_of db' pid + outstanding db' pid = _
  rw [hout]
  show stockOfP db'.products pid + _ = _
  rw [hprod]
  rfl

theorem WF_update {db : DB} {oid : Nat} {req : OrderUpdate} {uid : Option String}
    {db' : DB} {o' : Order} (hwf : WF db)
    (h : update_order db oid req uid = .ok (db', o')) : WF db' := by
  rcases update_ok_shape h with ⟨order, hfo, hforb, hdb, hcase⟩
  rcases hwf with ⟨hwf1, hwf2, hwf3⟩
  have hordid : order.id = oid := by
    have := List.find?_some hfo
    simpa using this
  have hordmem : order ∈ db.orders := List.mem_of_find?_eq_some hfo
  have hoid' : o'.id = oid := by
    rcases hcase with ⟨s, _, _, _, ho'⟩ | ⟨_, ho'⟩ <;>
      rw [ho', apply_update_fields_id] <;> exact hordid
  have hnext : db'.nextOrderId = db.nextOrderId := by rw [hdb]
  have hitems : db'.orderItems = db.orderItems := by rw [hdb]
  have hprod : db'.products = db.products := by rw [hdb]
  refine ⟨?_, ?_, ?_⟩
  · intro o ho
    rw [hdb] at ho
    rw [hnext]
    rcases mem_update_first ho with ho1 | ⟨x, hx, _, hoeq⟩
    · exact hwf1 o ho1
    · rw [hoeq, hoid', ← hordid]
      exact hwf1 order hordmem
  · intro oi hoi
    rw [hitems] at hoi
    rw [hnext]
    exact hwf2 oi hoi
  · intro oi hoi
    rw [hitems] at hoi
    show (db'.products.find? _).isSome = true
    rw [hprod]
    exact hwf3 oi hoi

theorem add_ok_fields {db : DB} {uid : String} {req : AddToCartRequest} {db' : DB}
    (h : add_to_cart db uid req = .ok db') :
    db'.products = db.products ∧ db'.orders = db.orders ∧
      db'.orderItems = db.orderItems ∧ db'.nextOrderId = db.nextOrderId := by
  unfold add_to_cart at h
  cases hfp : find_product db req.product_id with
  | none => rw [hfp] at h; cases h
  | some product =>
    rw [hfp] at h
    simp only [] at h
    by_cases hs : product.stock < req.quantity
    · rw [if_pos hs] at h; cases h
    · rw [if_neg hs] at h
      have hgoc : ((get_or_create_cart db uid).1.products = db.products ∧
          (get_or_create_cart db uid).1.orders = db.orders ∧
          (get_or_create_cart db uid).1.orderItems = db.orderItems ∧
          (get_or_create_cart db uid).1.nextOrderId = db.nextOrderId) := by
        unfold get_or_create_cart
        cases hc : db.carts.find? (fun c => c.user_id == uid) with
        | some cart => exact ⟨rfl, rfl, rfl, rfl⟩
        | none => exact ⟨rfl, rfl, rfl, rfl⟩
      cases hex : (get_or_create_cart db uid).1.cartItems.find? (fun ci =>
          ci.cart_id == (get_or_create_cart db uid).2.id && ci.product_id == req.product_id) with
      | some existing_item =>
        rw [hex] at h
        simp only [] at h
        by_cases hs2 : product.stock < existing_item.quantity + req.quantity
        · rw [if_pos hs2] at h; cases h
        · rw [if_neg hs2] at h
          simp only [Except.ok.injEq] at h
          rw [← h]
          exact hgoc
      | none =>
        rw [hex] at h
        simp only [Except.ok.injEq] at h
        rw [← h]
        exact hgoc

theorem conserved_fields_congr {db db' : DB}
    (hp : db'.products = db.products) (ho : db'.orders = db.orders)
    (hoi : db'.orderItems = db.orderItems) (pid : Nat) :
    conserved db' pid = conserved db pid := by
  have hc : ∀ oi, counts_item db' oi = counts_item db oi := by
    intro oi
    unfold counts_item order_status_of
    rw [ho]
  show stockOfP db'.products pid + outstanding db' pid =
    stockOfP db.products pid + outstanding db pid
  rw [hp, outstanding_eq db', outstanding_eq db, hoi,
    List.filter_congr (fun oi _ => hc oi)]

theorem WF_fields_congr {db db' : DB} (hwf : WF db)
    (hp : db'.products = db.products)
    (hoi : db'.orderItems = db.orderItems) (hn : db'.nextOrderId = db.nextOrderId)
    (ho : ∀ o ∈ db'.orders, o ∈ db.orders) : WF db' := by
  rcases hwf with ⟨hwf1, hwf2, hwf3⟩
  refine ⟨?_, ?_, ?_⟩
  · intro o hom
    rw [hn]
    exact hwf1 o (ho o hom)
  · intro oi hoi'
    rw [hn]
    exact hwf2 oi (hoi ▸ hoi')
  · intro oi hoi'
    show (db'.products.find? _).isSome = true
    rw [hp]
    exact hwf3 oi (hoi ▸ hoi')

theorem conserved_apply_op {db : DB} (hwf : WF db) (op : Op)
    (hop : no_cancel_via_update op) (pid : Nat) :
    conserved (apply_op db op) pid = conserved db pid := by
  cases op with
  | createOrder uid req =>
    show conserved (match create_order_from_cart db uid req with
      | .ok (db', _) => db' | .error _ => db) pid = _
    cases hc : create_order_from_cart db uid req with
    | error e => rfl
    | ok r => exact conserved_create hwf (by rw [hc]) pid
  | updateOrder oid req uid =>
    show conserved (match update_order db oid req uid with
      | .ok (db', _) => db' | .error _ => db) pid = _
    cases hc : update_order db oid req uid with
    | error e => rfl
    | ok r => exact conserved_update hop (by rw [hc]) pid
  | cancelOrder oid uid =>
    show conserved (match cancel_order db oid uid with
      | .ok (db', _) => db' | .error _ => db) pid = _
    cases hc : cancel_order db oid uid with
    | error e => rfl
    | ok r => exact conserved_cancel hwf (by rw [hc]) pid
  | addItem uid req =>
    show conserved (match add_to_cart db uid req with
      | .ok db' => db' | .error _ => db) pid = _
    cases hc : add_to_cart db uid req with
    | error e => rfl
    | ok db2 =>
      rcases add_ok_fields hc with ⟨hp, ho, hoi, _⟩
      exact conserved_fields_congr hp ho hoi pid

theorem WF_apply_op {db : DB} (hwf : WF db) (op : Op) : WF (apply_op db op) := by
  cases op with
  | createOrder uid req =>
    show WF (match create_order_from_cart db uid req with
      | .ok (db', _) => db' | .error _ => db)
    cases hc : create_order_from_cart db uid req with
    | error e => exact hwf
    | ok r => exact WF_create hwf (by rw [hc])
  | updateOrder oid req uid =>
    show WF (match update_order db oid req uid with
      | .ok (db', _) => db' | .error _ => db)
    cases hc : update_order db oid req uid with
    | error e => exact hwf
    | ok r => exact WF_update hwf (by rw [hc])
  | cancelOrder oid uid =>
    show WF (match cancel_order db oid uid with
      | .ok (db', _) => db' | .error _ => db)
    cases hc : cancel_order db oid uid with
    | error e => exact hwf
    | ok r => exact WF_cancel hwf (by rw [hc])
  | addItem uid req =>
    show WF (match add_to_cart db uid req with
      | .ok db' => db' | .error _ => db)
    cases hc : add_to_cart db uid req with
    | error e => exact hwf
    | ok db2 =>
      rcases add_ok_fields hc with ⟨hp, ho, hoi, hn⟩
      exact WF_fields_congr hwf hp hoi hn (fun o hom => ho ▸ hom)

theorem conserved_run_ops {ops : List Op} :
    ∀ {db : DB}, WF db → (∀ op ∈ ops, no_cancel_via_update op) →
      ∀ pid, conserved (run_ops db ops) pid = conserved db pid := by
  induction ops with
  | nil => intro db _ _ pid; rfl
  | cons op rest ih =>
    intro db hwf hops pid
    have h1 : conserved (apply_op db op) pid = conserved db pid :=
      conserved_apply_op hwf op (hops op (List.mem_cons_self op rest)) pid
    have h2 := ih (WF_apply_op hwf op)
      (fun x hx => hops x (List.mem_cons_of_mem op hx)) pid
    show conserved (run_ops (apply_op db op) rest) pid = _
    rw [h2, h1]

/-! ## Further helper lemmas for the per-claim theorems -/

theorem sumFor_cart_pairs_nodup :
    ∀ {items : List CartItem},
      ((items.map (fun ci => ci.product_id)).Nodup) →
      ∀ ci ∈ items, sumFor (cart_pairs items) ci.product_id = ci.quantity := by
  intro items
  induction items with
  | nil => intro _ ci hci; exact absurd hci (List.not_mem_nil ci)
  | cons c rest ih =>
    intro hnodup ci hci
    rw [List.map_cons, List.nodup_cons] at hnodup
    have hpair : cart_pairs (c :: rest) = (c.product_id, c.quantity) :: cart_pairs rest := rfl
    have hfst : (cart_pairs rest).map (fun x => x.1) = rest.map (fun ci => ci.product_id) := by
      simp [cart_pairs, List.map_map]
    rcases List.mem_cons.mp hci with hc | hc
    · subst hc
      rw [hpair, sumFor_cons]
      have h0 : sumFor (cart_pairs rest) ci.product_id = 0 := by
        apply sumFor_of_not_mem
        rw [hfst]
        exact hnodup.1
      rw [h0, beq_self_eq_true]
      simp
    · have hne : (c.product_id == ci.product_id) = false := by
        apply beq_eq_false_iff_ne.mpr
        intro hh
        exact hnodup.1 (hh ▸ List.mem_map.mpr ⟨ci, hc, rfl⟩)
      rw [hpair, sumFor_cons, hne]
      simp only [Bool.false_eq_true, if_false, zero_add]
      exact ih hnodup.2 ci hc

theorem find?_update_first_same {α : Type} {sel : α → Bool} {f : α → α}
    (hpres : ∀ a, sel a = true → sel (f a) = true) :
    ∀ {l : List α} {e : α}, l.find? sel = some e →
      (update_first sel f l).find? sel = some (f e) := by
  intro l
  induction l with
  | nil => intro e h; cases h
  | cons a as ih =>
    intro e h
    cases ha : sel a with
    | true =>
      rw [List.find?_cons, ha] at h
      injection h with h
      subst h
      simp [update_first, ha, List.find?_cons, hpres a ha]
    | false =>
      rw [List.find?_cons, ha] at h
      simp only [update_first, ha, Bool.false_eq_true, if_false, List.find?_cons, ha]
      exact ih h

theorem filter_update_first_length {α : Type} {sel : α → Bool} {f : α → α}
    (hpres : ∀ a, sel a = true → sel (f a) = true) :
    ∀ (l : List α),
      ((update_first sel f l).filter sel).length = (l.filter sel).length := by
  intro l
  induction l with
  | nil => rfl
  | cons a as ih =>
    cases ha : sel a with
    | true =>
      simp [update_first, ha, List.filter_cons, hpres a ha]
    | false =>
      simp only [update_first, ha, Bool.false_eq_true, if_false, List.filter_cons]
      simpa [ha] using ih

theorem get_or_create_fields (db : DB) (uid : String) :
    (get_or_create_cart db uid).1.products = db.products ∧
    (get_or_create_cart db uid).1.cartItems = db.cartItems ∧
    (get_or_create_cart db uid).1.orders = db.orders ∧
    (get_or_create_cart db uid).1.orderItems = db.orderItems := by
  unfold get_or_create_cart
  cases hc : db.carts.find? (fun c => c.user_id == uid) with
  | some cart => exact ⟨rfl, rfl, rfl, rfl⟩
  | none => exact ⟨rfl, rfl, rfl, rfl⟩

theorem stockOfP_of_find {products : List Product} {pid : Nat} {p : Product}
    (h : products.find? (fun q => q.id == pid) = some p) :
    stockOfP products p.id = p.stock := by
  have hid : p.id = pid := by
    have := List.find?_some h
    simpa using this
  rw [stockOfP, hid, h]

theorem reorder_step_inv {products : List Product} {cid : Nat} {base : List CartItem}
    {acc : ReorderAcc} (oi : OrderItem)
    (h : ∀ ci ∈ acc.cart_items,
      ci ∈ base ∨ ci.quantity ≤ stockOfP products ci.product_id) :
    ∀ ci ∈ (reorder_step products cid acc oi).cart_items,
      ci ∈ base ∨ ci.quantity ≤ stockOfP products ci.product_id := by
  intro ci hci
  unfold reorder_step at hci
  cases hfp : products.find? (fun p => p.id == oi.product_id) with
  | none => rw [hfp] at hci; exact h ci hci
  | some product =>
    rw [hfp] at hci
    simp only [] at hci
    by_cases hz : product.stock = 0
    · rw [if_pos hz] at hci
      exact h ci hci
    · rw [if_neg hz] at hci
      simp only [] at hci
      have hstk : stockOfP products product.id = product.stock := stockOfP_of_find hfp
      have hqle : (if product.stock < oi.quantity then product.stock else oi.quantity) ≤
          product.stock := by
        by_cases hlt : product.stock < oi.quantity
        · rw [if_pos hlt]
        · rw [if_neg hlt]
          exact le_of_not_lt hlt
      cases hex : acc.cart_items.find? (fun x =>
          x.cart_id == cid && x.product_id == product.id) with
      | some existing_cart_item =>
        rw [hex] at hci
        simp only [] at hci
        rcases mem_update_first hci with hold | ⟨x, hx, hsel, hcieq⟩
        · exact h ci hold
        · right
          have hxpid : x.product_id = product.id := by
            have := (Bool.and_eq_true _ _).mp hsel
            simpa using this.2
          have hcipid : ci.product_id = product.id := by
            rw [hcieq]
            exact hxpid
          rw [hcipid, hstk]
          have : ci.quantity =
              min (existing_cart_item.quantity +
                (if product.stock < oi.quantity then product.stock else oi.quantity))
                product.stock := by
            rw [hcieq]
          rw [this]
          exact min_le_right _ _
      | none =>
        rw [hex] at hci
        simp only [] at hci
        rcases List.mem_append.mp hci with hold | hnew
        · exact h ci hold
        · right
          rcases List.mem_singleton.mp hnew with rfl
          show (if product.stock < oi.quantity then product.stock else oi.quantity) ≤
            stockOfP products product.id
          rw [hstk]
          exact hqle

theorem reorder_fold_inv {products : List Product} {cid : Nat} {base : List CartItem} :
    ∀ {items : List OrderItem} {acc : ReorderAcc},
      (∀ ci ∈ acc.cart_items,
        ci ∈ base ∨ ci.quantity ≤ stockOfP products ci.product_id) →
      ∀ ci ∈ (items.foldl (reorder_step products cid) acc).cart_items,
        ci ∈ base ∨ ci.quantity ≤ stockOfP products ci.product_id := by
  intro items
  induction items with
  | nil => intro acc h; exact h
  | cons oi rest ih =>
    intro acc h
    exact ih (reorder_step_inv oi h)

/-! ## The claim theorems -/

/-- C1: the claim says that for a stock-1 product two concurrent
`create_order_from_cart` calls each requesting the last unit are serialized
so that exactly one succeeds and the other receives the
insufficient-stock error.  The code has no such serialization: the stock
check (line 68) and the decrement (line 111) act on the session-local
snapshot with no lock or conditional update.  Under the interleaving in
which both sessions load the product before either commits, BOTH requests
succeed and two units are sold out of a stock of one — while a serialized
schedule indeed fails the second request.  This evaluates the race model at
that failing schedule. -/
theorem claim_C1_concurrent_oversell :
    run_race 1 1 { stock := 1, r1 := .start, r2 := .start } [false, true, false, true] =
      { stock := 0, r1 := .done true, r2 := .done true } ∧
    sold 1 (run_race 1 1 { stock := 1, r1 := .start, r2 := .start }
        [false, true, false, true]).r1 +
      sold 1 (run_race 1 1 { stock := 1, r1 := .start, r2 := .start }
        [false, true, false, true]).r2 = 2 ∧
    ¬((1 : ℤ) + 1 ≤ 1) ∧
    run_race 1 1 { stock := 1, r1 := .start, r2 := .start } [false, false, true, true] =
      { stock := 0, r1 := .done true, r2 := .done false } := by
  refine ⟨by decide, by decide, by decide, by decide⟩

/-- C4 counterexample: after creating an order for the single unit and then
driving the order's status to `cancelled` through `update_order` (which the
code permits without restoring stock), the final stock (0) differs from
initial stock (1) minus the outstanding quantity of non-cancelled orders
(0): the claimed conservation fails for sequences containing status
updates. -/
theorem claim_C4_counterexample :
    WF dbC4 ∧
    isOkE (update_order (apply_op dbC4 (.createOrder "u" reqEx)) 1 updCancel none) = true ∧
    stock_of (run_ops dbC4 opsC4) 1 = 0 ∧
    outstanding (run_ops dbC4 opsC4) 1 = 0 ∧
    stock_of dbC4 1 = 1 ∧
    ¬(stock_of (run_ops dbC4 opsC4) 1 = stock_of dbC4 1 - outstanding (run_ops dbC4 opsC4) 1) := by
  refine ⟨by decide, by decide, by decide, by decide, by decide, by decide⟩

/-- C4 amended: stock conservation holds for every finite sequence of
order-creation, order-cancellation, add-to-cart and order-update operations
in which no update request sets the status to `cancelled`: for every
product, current stock plus the total quantity in order items of
non-cancelled orders is invariant.  (The unrestricted claim fails because
`update_order` can set the status to `cancelled` without restoring stock —
see the counterexample.) -/
theorem claim_C4_stock_conservation {db : DB} {ops : List Op} (hwf : WF db)
    (hops : ∀ op ∈ ops, no_cancel_via_update op) (pid : Nat) :
    stock_of (run_ops db ops) pid + outstanding (run_ops db ops) pid =
      stock_of db pid + outstanding db pid :=
  conserved_run_ops hwf hops pid

/-- C4 witness: the conservation theorem applied to the concrete create
then cancel sequence over the one-unit product. -/
theorem claim_C4_witness :
    WF dbC4 ∧ (∀ op ∈ opsC4w, no_cancel_via_update op) ∧
    stock_of (run_ops dbC4 opsC4w) 1 + outstanding (run_ops dbC4 opsC4w) 1 =
      stock_of dbC4 1 + outstanding dbC4 1 :=
  ⟨by decide, by decide, claim_C4_stock_conservation (by decide) (by decide) 1⟩

/-- C2: if some item of the user's cart requests more than its product's
current stock, `create_order_from_cart` fails with the insufficient-stock
error naming the offending product, its available stock and the requested
quantity, and the whole database — orders, order items, product stocks and
cart items — is unchanged (the check loop precedes every write). -/
theorem claim_C2_insufficient_stock_aborts
    {db : DB} {uid : String} {req : CreateOrderFromCartRequest} {cart : Cart}
    (hc : db.carts.find? (fun c => c.user_id == uid) = some cart)
    (hex : ∀ ci ∈ db.cartItems.filter (fun ci => ci.cart_id == cart.id),
      (find_product db ci.product_id).isSome = true)
    (hbad : ∃ ci ∈ db.cartItems.filter (fun ci => ci.cart_id == cart.id),
      ∃ p, find_product db ci.product_id = some p ∧ p.stock < ci.quantity) :
    (∃ ci ∈ db.cartItems.filter (fun ci => ci.cart_id == cart.id), ∃ p,
      find_product db ci.product_id = some p ∧ p.stock < ci.quantity ∧
      create_order_from_cart db uid req =
        .error (.insufficientStockOrder p.name p.stock ci.quantity)) ∧
    apply_op db (.createOrder uid req) = db := by
  have hne : db.cartItems.filter (fun ci => ci.cart_id == cart.id) ≠ [] := by
    rcases hbad with ⟨ci, hci, _⟩
    intro hnil
    rw [hnil] at hci
    exact absurd hci (List.not_mem_nil ci)
  rcases validate_items_err hex hbad with ⟨ci, hci, p, hp, hs, herr⟩
  have hres : create_order_from_cart db uid req =
      .error (.insufficientStockOrder p.name p.stock ci.quantity) := by
    unfold create_order_from_cart
    rw [hc]
    simp only []
    rw [if_neg (by simp [List.isEmpty_iff, hne]), herr]
  refine ⟨⟨ci, hci, p, hp, hs, hres⟩, ?_⟩
  show (match create_order_from_cart db uid req with
    | .ok (db', _) => db' | .error _ => db) = db
  rw [hres]

/-- C2 witness: spec scenario 2 — Product A has stock 1 but the cart
requests 2, so the creation fails with
`insufficientStockOrder "Product A" 1 2` and the database is untouched. -/
theorem claim_C2_witness :
    (∃ ci ∈ dbC2.cartItems.filter (fun ci => ci.cart_id == cartU.id), ∃ p,
      find_product dbC2 ci.product_id = some p ∧ p.stock < ci.quantity ∧
      create_order_from_cart dbC2 "u" reqEx =
        .error (.insufficientStockOrder p.name p.stock ci.quantity)) ∧
    apply_op dbC2 (.createOrder "u" reqEx) = dbC2 :=
  claim_C2_insufficient_stock_aborts (by decide) (by decide) (by decide)

/-- C3: for a non-empty cart in which every item's quantity is within its
product's stock (and, per the cart invariant, product ids are not
duplicated), `create_order_from_cart` succeeds; the new order is `pending`;
its total is the 2-decimal rounding of the sum of quantity times price; one
order item is appended per cart item carrying the price snapshot and
`subtotal = quantity * unit_price`; every referenced product's stock drops
by exactly the ordered quantity; all the cart's items are deleted while the
cart row itself survives. -/
theorem claim_C3_successful_order
    {db : DB} {uid : String} {req : CreateOrderFromCartRequest} {cart : Cart}
    (hc : db.carts.find? (fun c => c.user_id == uid) = some cart)
    (hne : db.cartItems.filter (fun ci => ci.cart_id == cart.id) ≠ [])
    (hall : ∀ ci ∈ db.cartItems.filter (fun ci => ci.cart_id == cart.id),
      ∃ p, find_product db ci.product_id = some p ∧ ci.quantity ≤ p.stock)
    (hnodup : ((db.cartItems.filter (fun ci => ci.cart_id == cart.id)).map
      (fun ci => ci.product_id)).Nodup) :
    ∃ db' order, create_order_from_cart db uid req = .ok (db', order) ∧
      order.status = .pending ∧
      order.total_amount = py_round_2
        (((db.cartItems.filter (fun ci => ci.cart_id == cart.id)).map
          (fun ci => (ci.quantity : ℚ) * price_of db ci.product_id)).sum) ∧
      db'.orderItems = db.orderItems ++
        (db.cartItems.filter (fun ci => ci.cart_id == cart.id)).map (fun ci =>
          { order_id := db.nextOrderId, product_id := ci.product_id,
            quantity := ci.quantity, unit_price := price_of db ci.product_id,
            subtotal := (ci.quantity : ℚ) * price_of db ci.product_id }) ∧
      (∀ ci ∈ db.cartItems.filter (fun ci => ci.cart_id == cart.id),
        stock_of db' ci.product_id = stock_of db ci.product_id - ci.quantity) ∧
      db'.cartItems = db.cartItems.filter (fun ci => !(ci.cart_id == cart.id)) ∧
      db'.carts = db.carts ∧ cart ∈ db'.carts := by
  have hv := validate_items_ok_of hall
  have hexists : ∃ r, create_order_from_cart db uid req = .ok r := by
    unfold create_order_from_cart
    rw [hc]
    simp only []
    rw [if_neg (by simp [List.isEmpty_iff, hne]), hv]
    exact ⟨_, rfl⟩
  rcases hexists with ⟨⟨db', order⟩, hres⟩
  rcases create_ok_shape hres with ⟨cart2, ds2, hfc2, hv2, horder, hdb⟩
  have hcart2 : cart2 = cart := by
    rw [hc] at hfc2
    injection hfc2 with hfc2
    exact hfc2.symm
  rw [hcart2] at hv2 hdb
  have hds2 : ds2 = (db.cartItems.filter (fun ci => ci.cart_id == cart.id)).map (fun ci =>
      { product_id := ci.product_id, quantity := ci.quantity,
        unit_price := price_of db ci.product_id,
        subtotal := (ci.quantity : ℚ) * price_of db ci.product_id }) := by
    rw [hv] at hv2
    injection hv2 with hv2
    exact hv2.symm
  rw [hds2] at horder hdb
  refine ⟨db', order, hres, by rw [horder], ?_, ?_, ?_, by rw [hdb], by rw [hdb],
    by rw [hdb]; exact List.mem_of_find?_eq_some hc⟩
  · rw [horder]
    show py_round_2 _ = _
    rw [List.map_map]
    rfl
  · rw [hdb]
    show db.orderItems ++ _ = db.orderItems ++ _
    rw [List.map_map]
    rfl
  · intro ci hci
    have hstock : stock_of db' ci.product_id =
        stock_of db ci.product_id -
          sumFor (cart_pairs (db.cartItems.filter (fun x => x.cart_id == cart.id)))
            ci.product_id := by
      rw [hdb]
      show stockOfP (adjust_many db.products _) ci.product_id = _
      rw [stockOfP_adjust_many ?pre ci.product_id, sumFor_cart_pairs_neg]
      · show stock_of db ci.product_id + _ = _
        ring
      case pre =>
        intro x hx
        rcases List.mem_map.mp hx with ⟨y, hy, hxeq⟩
        rcases hall y hy with ⟨p, hp, _⟩
        rw [← hxeq]
        show (find_product db y.product_id).isSome = true
        rw [hp]
        rfl
    rw [hstock, sumFor_cart_pairs_nodup hnodup ci hci]

/-- C3 witness: spec scenario 1 — A (stock 5, price 10) qty 2 and
B (stock 3, price 5) qty 1: the order succeeds with the documented
effects (total 25.00, stocks 3 and 2, cart emptied, cart row kept). -/
theorem claim_C3_witness :
    ∃ db' order, create_order_from_cart dbC3 "u" reqEx = .ok (db', order) ∧
      order.status = .pending ∧
      order.total_amount = py_round_2
        (((dbC3.cartItems.filter (fun ci => ci.cart_id == cartU.id)).map
          (fun ci => (ci.quantity : ℚ) * price_of dbC3 ci.product_id)).sum) ∧
      db'.orderItems = dbC3.orderItems ++
        (dbC3.cartItems.filter (fun ci => ci.cart_id == cartU.id)).map (fun ci =>
          { order_id := dbC3.nextOrderId, product_id := ci.product_id,
            quantity := ci.quantity, unit_price := price_of dbC3 ci.product_id,
            subtotal := (ci.quantity : ℚ) * price_of dbC3 ci.product_id }) ∧
      (∀ ci ∈ dbC3.cartItems.filter (fun ci => ci.cart_id == cartU.id),
        stock_of db' ci.product_id = stock_of dbC3 ci.product_id - ci.quantity) ∧
      db'.cartItems = dbC3.cartItems.filter (fun ci => !(ci.cart_id == cartU.id)) ∧
      db'.carts = dbC3.carts ∧ cartU ∈ db'.carts :=
  claim_C3_successful_order (by decide) (by decide) (by decide) (by decide)

/-- C5: `cancel_order` succeeds exactly when the order exists, the caller
is authorized, and the status is `pending`, `confirmed` or `processing`;
on success each referenced product's stock increases by that order's item
quantity and the status becomes `cancelled` in the same result state; a
`shipped` or `delivered` order is rejected with the
cannot-cancel-at-this-stage error and nothing changes; a missing order or
an unauthorized caller is rejected. -/
theorem claim_C5_cancel_spec (db : DB) (oid : Nat) (uid : Option String)
    (hwf : WF db) :
    (db.orders.find? (fun o => o.id == oid) = none →
      cancel_order db oid uid = .error (.orderNotFound oid)) ∧
    (∀ o, db.orders.find? (fun x => x.id == oid) = some o →
      owner_forbidden o uid = true →
      cancel_order db oid uid = .error .forbidden ∧
      apply_op db (.cancelOrder oid uid) = db) ∧
    (∀ o, db.orders.find? (fun x => x.id == oid) = some o →
      owner_forbidden o uid = false →
      ((∃ r, cancel_order db oid uid = .ok r) ↔
        (o.status = .pending ∨ o.status = .confirmed ∨ o.status = .processing))) ∧
    (∀ o, db.orders.find? (fun x => x.id == oid) = some o →
      owner_forbidden o uid = false →
      (o.status = .pending ∨ o.status = .confirmed ∨ o.status = .processing) →
      ∃ db', cancel_order db oid uid = .ok (db', { o with status := .cancelled }) ∧
        (∀ pid, stock_of db' pid = stock_of db pid +
          sumFor (oi_pairs (db.orderItems.filter (fun oi => oi.order_id == oid))) pid) ∧
        order_status_of db' oid = some .cancelled ∧
        db'.orderItems = db.orderItems) ∧
    (∀ o, db.orders.find? (fun x => x.id == oid) = some o →
      owner_forbidden o uid = false →
      (o.status = .shipped ∨ o.status = .delivered) →
      cancel_order db oid uid = .error (.cannotCancelStage o.status) ∧
      apply_op db (.cancelOrder oid uid) = db) := by
  have hrun : ∀ o, db.orders.find? (fun x => x.id == oid) = some o →
      owner_forbidden o uid = false →
      o.status ≠ .cancelled → ¬(o.status = .shipped ∨ o.status = .delivered) →
      cancel_order db oid uid = .ok
        ({ db with
            products := restore_stock db.products
              (db.orderItems.filter (fun oi => oi.order_id == oid))
            orders := update_first (fun x => x.id == oid)
              (fun _ => { o with status := OrderStatus.cancelled }) db.orders },
          { o with status := OrderStatus.cancelled }) := by
    intro o hfo hforb hnc hnsd
    unfold cancel_order
    rw [hfo]
    simp only []
    rw [if_neg (by simp [hforb]), if_neg hnc, if_neg hnsd]
  refine ⟨?_, ?_, ?_, ?_, ?_⟩
  · intro hnone
    unfold cancel_order
    rw [hnone]
  · intro o hfo hforb
    have herr : cancel_order db oid uid = .error .forbidden := by
      unfold cancel_order
      rw [hfo]
      simp only []
      rw [if_pos hforb]
    refine ⟨herr, ?_⟩
    show (match cancel_order db oid uid with
      | .ok (db', _) => db' | .error _ => db) = db
    rw [herr]
  · intro o hfo hforb
    constructor
    · rintro ⟨⟨db', o'⟩, hok⟩
      rcases cancel_ok_shape hok with ⟨o2, hfo2, _, hnc, hnsd, _, _⟩
      have ho2 : o2 = o := by
        rw [hfo] at hfo2
        injection hfo2 with h
        exact h.symm
      rw [ho2] at hnc hnsd
      cases hst : o.status with
      | pending => exact Or.inl rfl
      | confirmed => exact Or.inr (Or.inl rfl)
      | processing => exact Or.inr (Or.inr rfl)
      | shipped => exact absurd (Or.inl hst) hnsd
      | delivered => exact absurd (Or.inr hst) hnsd
      | cancelled => exact absurd hst hnc
    · intro hst
      have hnc : o.status ≠ OrderStatus.cancelled := by
        rcases hst with h | h | h <;> rw [h] <;> intro hh <;> cases hh
      have hnsd : ¬(o.status = OrderStatus.shipped ∨ o.status = OrderStatus.delivered) := by
        rcases hst with h | h | h <;> rw [h] <;> rintro (hh | hh) <;> cases hh
      exact ⟨_, hrun o hfo hforb hnc hnsd⟩
  · intro o hfo hforb hst
    have hnc : o.status ≠ OrderStatus.cancelled := by
      rcases hst with h | h | h <;> rw [h] <;> intro hh <;> cases hh
    have hnsd : ¬(o.status = OrderStatus.shipped ∨ o.status = OrderStatus.delivered) := by
      rcases hst with h | h | h <;> rw [h] <;> rintro (hh | hh) <;> cases hh
    refine ⟨_, hrun o hfo hforb hnc hnsd, ?_, ?_, rfl⟩
    · intro pid
      show stockOfP (restore_stock db.products _) pid = _
      have hrs : restore_stock db.products
          (db.orderItems.filter (fun oi => oi.order_id == oid)) =
          adjust_many db.products
            (oi_pairs (db.orderItems.filter (fun oi => oi.order_id == oid))) := rfl
      rw [hrs, stockOfP_adjust_many ?pre pid]
      · rfl
      case pre =>
        intro x hx
        rcases List.mem_map.mp hx with ⟨oi, hoi, hxeq⟩
        have := hwf.2.2 oi (List.mem_of_mem_filter hoi)
        rw [← hxeq]
        exact this
    · show ((update_first (fun x => x.id == oid)
          (fun _ => { o with status := OrderStatus.cancelled }) db.orders).find?
            (fun x => x.id == oid)).map (fun x => x.status) = some OrderStatus.cancelled
      have hordid : o.id = oid := by
        have := List.find?_some hfo
        simpa using this
      rw [find?_update_order_self (show ({ o with status := OrderStatus.cancelled } : Order).id = oid from hordid) (by rw [hfo]; rfl)]
      rfl
  · intro o hfo hforb hsd
    have hnc : o.status ≠ OrderStatus.cancelled := by
      rcases hsd with h | h <;> rw [h] <;> intro hh <;> cases hh
    have herr : cancel_order db oid uid = .error (.cannotCancelStage o.status) := by
      unfold cancel_order
      rw [hfo]
      simp only []
      rw [if_neg (by simp [hforb]), if_neg hnc, if_pos hsd]
    refine ⟨herr, ?_⟩
    show (match cancel_order db oid uid with
      | .ok (db', _) => db' | .error _ => db) = db
    rw [herr]

/-- C5 witness: cancelling the concrete pending order restores stocks
(by 3 and 1) and flips the status to cancelled; the same order once
delivered is rejected. -/
theorem claim_C5_witness :
    (∃ db', cancel_order dbC5 1 (some "u") = .ok (db', { ordC5 with status := .cancelled }) ∧
      (∀ pid, stock_of db' pid = stock_of dbC5 pid +
        sumFor (oi_pairs (dbC5.orderItems.filter (fun oi => oi.order_id == 1))) pid) ∧
      order_status_of db' 1 = some .cancelled ∧
      db'.orderItems = dbC5.orderItems) :=
  (claim_C5_cancel_spec dbC5 1 (some "u") (by decide)).2.2.2.1 ordC5
    (by decide) (by decide) (Or.inl (by decide))

/-- C6 counterexample: the claim says EVERY mutation attempt on a cancelled
order is rejected, including customer-field changes.  But `update_order`
only guards the status branch (`if request.status:`), so a customer-field-
only update of the concrete cancelled order succeeds by its owner and
mutates the stored row (`customer_name` becomes `X`). -/
theorem claim_C6_counterexample :
    order_status_of dbC6 1 = some .cancelled ∧
    isOkE (update_order dbC6 1 updC6 (some "u")) = true ∧
    (∃ o, (apply_op dbC6 (.updateOrder 1 updC6 (some "u"))).orders.find?
        (fun x => x.id == 1) = some o ∧ o.customer_name = "X") ∧
    apply_op dbC6 (.updateOrder 1 updC6 (some "u")) ≠ dbC6 := by
  refine ⟨by decide, by decide, ⟨{ ordC6 with customer_name := "X" }, by decide, rfl⟩, by decide⟩

/-- C6 amended: on a cancelled order every STATUS-changing `update_order`
call and every repeated `cancel_order` call is rejected with the
corresponding invalid-state error and leaves the database unchanged — in
particular a repeated cancellation never restores stock a second time.
Customer-field-only updates, however, are not blocked by the code. -/
theorem claim_C6_cancelled_immutable {db : DB} {oid : Nat} {o : Order}
    (hfo : db.orders.find? (fun x => x.id == oid) = some o)
    (hst : o.status = .cancelled) :
    (∀ req uid, req.status.isSome = true → update_forbidden o req uid = false →
      update_order db oid req uid = .error .cannotModifyCancelled ∧
      apply_op db (.updateOrder oid req uid) = db) ∧
    (∀ uid, owner_forbidden o uid = false →
      cancel_order db oid uid = .error .alreadyCancelled ∧
      apply_op db (.cancelOrder oid uid) = db) := by
  constructor
  · intro req uid hsome hforb
    rcases Option.isSome_iff_exists.mp hsome with ⟨s, hs⟩
    have herr : update_order db oid req uid = .error .cannotModifyCancelled := by
      unfold update_order
      rw [hfo]
      simp only []
      rw [if_neg (by simp [hforb]), hs]
      simp only []
      rw [if_pos hst]
    refine ⟨herr, ?_⟩
    show (match update_order db oid req uid with
      | .ok (db', _) => db' | .error _ => db) = db
    rw [herr]
  · intro uid hforb
    have herr : cancel_order db oid uid = .error .alreadyCancelled := by
      unfold cancel_order
      rw [hfo]
      simp only []
      rw [if_neg (by simp [hforb]), if_pos hst]
    refine ⟨herr, ?_⟩
    show (match cancel_order db oid uid with
      | .ok (db', _) => db' | .error _ => db) = db
    rw [herr]

/-- C6 witness: on the concrete cancelled order a status-only update and a
repeated cancellation are both rejected and leave the state (and in
particular the stocks) untouched. -/
theorem claim_C6_witness :
    (update_order dbC6 1 updC6w (some "u") = .error .cannotModifyCancelled ∧
      apply_op dbC6 (.updateOrder 1 updC6w (some "u")) = dbC6) ∧
    (cancel_order dbC6 1 (some "u") = .error .alreadyCancelled ∧
      apply_op dbC6 (.cancelOrder 1 (some "u")) = dbC6) :=
  ⟨(@claim_C6_cancelled_immutable dbC6 1 ordC6
      (by decide) (by decide)).1 updC6w (some "u") (by decide) (by decide),
   (@claim_C6_cancelled_immutable dbC6 1 ordC6
      (by decide) (by decide)).2 (some "u") (by decide)⟩

/-- C7: the claim says a successful `create_order_from_cart` invalidates
the cache entries of every decremented product.  The code performs no
cache operation at all (`order_service.py` imports none of the cache
utilities), so with product 1's detail snapshot cached at stock 5, placing
an order for 2 units leaves the cache unchanged, the database stock drops
to 3, and the next cached detail read still returns the stale stock 5. -/
theorem claim_C7_no_cache_invalidation :
    (∀ db cache uid req db2 cache2 order,
      create_order_from_cart_sys db cache uid req = .ok (db2, cache2, order) →
      cache2 = cache) ∧
    isOkE (create_order_from_cart_sys dbC7 cacheC7 "u" reqEx) = true ∧
    stock_of dbC7 1 = 5 ∧
    stock_of (apply_op dbC7 (.createOrder "u" reqEx)) 1 = 3 ∧
    get_product_by_id (apply_op dbC7 (.createOrder "u" reqEx)) cacheC7 1 =
      .ok (pC7, cacheC7) ∧
    pC7.stock = 5 ∧
    pC7.stock ≠ stock_of (apply_op dbC7 (.createOrder "u" reqEx)) 1 := by
  refine ⟨?_, by decide, by decide, by decide, by decide, by decide, by decide⟩
  intro db cache uid req db2 cache2 order h
  unfold create_order_from_cart_sys at h
  cases hc : create_order_from_cart db uid req with
  | error e => rw [hc] at h; cases h
  | ok r =>
    rw [hc] at h
    simp only [Except.ok.injEq, Prod.mk.injEq] at h
    exact h.2.1.symm

/-- C7 witness: the general no-invalidation conjunct applied to the
concrete scenario: the cache after the successful order creation is
exactly the cache before. -/
theorem claim_C7_witness :
    ∃ db2 order, create_order_from_cart_sys dbC7 cacheC7 "u" reqEx =
      .ok (db2, cacheC7, order) := by
  have hok : isOkE (create_order_from_cart_sys dbC7 cacheC7 "u" reqEx) = true := by decide
  cases hc : create_order_from_cart_sys dbC7 cacheC7 "u" reqEx with
  | error e =>
    rw [hc] at hok
    simp [isOkE] at hok
  | ok r =>
    obtain ⟨db2, cache2, order⟩ := r
    have hcache : cache2 = cacheC7 :=
      claim_C7_no_cache_invalidation.1 dbC7 cacheC7 "u" reqEx db2 cache2 order hc
    exact ⟨db2, order, by rw [hcache]⟩

/-- C8 counterexample: the claim says a non-owning, non-admin caller is
always rejected with a forbidden error before any state logic — including
a status-only update.  But `update_order` only enforces ownership when the
payload carries customer fields, so the intruder's status-only update of
another user's pending order succeeds and the status changes. -/
theorem claim_C8_counterexample :
    ordC8.user_id = "u1" ∧
    isOkE (update_order dbC8 1 updC8 (some "intruder")) = true ∧
    order_status_of (apply_op dbC8 (.updateOrder 1 updC8 (some "intruder"))) 1 =
      some .confirmed ∧
    update_order dbC8 1 updC8 (some "intruder") ≠ .error .forbidden := by
  refine ⟨rfl, by decide, by decide, by decide⟩

/-- C8 amended: a non-owning, non-admin caller of `cancel_order` is always
rejected with the forbidden error before any state-machine check or state
mutation (whatever the order's status); for `update_order` this holds only
when the request carries a customer field (name, email, phone or address) —
a status-only update by a non-owner is NOT rejected. -/
theorem claim_C8_auth_before_state {db : DB} {oid : Nat} {o : Order} {u : String}
    (hfo : db.orders.find? (fun x => x.id == oid) = some o)
    (hne : o.user_id ≠ u) :
    (cancel_order db oid (some u) = .error .forbidden ∧
      apply_op db (.cancelOrder oid (some u)) = db) ∧
    (∀ req, (req.customer_name.isSome || req.customer_email.isSome ||
        req.customer_phone.isSome || req.shipping_address.isSome) = true →
      update_order db oid req (some u) = .error .forbidden ∧
      apply_op db (.updateOrder oid req (some u)) = db) := by
  have hforb : owner_forbidden o (some u) = true := by
    simp [owner_forbidden, hne]
  constructor
  · have herr : cancel_order db oid (some u) = .error .forbidden := by
      unfold cancel_order
      rw [hfo]
      simp only []
      rw [if_pos hforb]
    refine ⟨herr, ?_⟩
    show (match cancel_order db oid (some u) with
      | .ok (db', _) => db' | .error _ => db) = db
    rw [herr]
  · intro req hfields
    have hforb2 : update_forbidden o req (some u) = true := by
      unfold update_forbidden
      rw [hfields]
      simp [hne]
    have herr : update_order db oid req (some u) = .error .forbidden := by
      unfold update_order
      rw [hfo]
      simp only []
      rw [if_pos hforb2]
    refine ⟨herr, ?_⟩
    show (match update_order db oid req (some u) with
      | .ok (db', _) => db' | .error _ => db) = db
    rw [herr]

/-- C8 witness: the intruder's cancel attempt and customer-field update of
the other user's pending order are both rejected with the forbidden error
and change nothing. -/
theorem claim_C8_witness :
    (cancel_order dbC8 1 (some "intruder") = .error .forbidden ∧
      apply_op dbC8 (.cancelOrder 1 (some "intruder")) = dbC8) ∧
    (update_order dbC8 1 updC6 (some "intruder") = .error .forbidden ∧
      apply_op dbC8 (.updateOrder 1 updC6 (some "intruder")) = dbC8) :=
  ⟨(@claim_C8_auth_before_state dbC8 1 ordC8 "intruder"
      (by decide) (by decide)).1,
   (@claim_C8_auth_before_state dbC8 1 ordC8 "intruder"
      (by decide) (by decide)).2 updC6 (by decide)⟩

/-- C9 counterexample: product stock 3, already in the cart with quantity
2, request for 4 more.  The merged check `stock >= existing + requested`
fails (3 < 6), but the raised error is the plain one carrying only the
available stock and the requested amount — the current-in-cart amount is
not reported, contrary to the claim that every failure of the merged check
reports both. -/
theorem claim_C9_counterexample :
    (∃ e ∈ dbC9.cartItems, e.cart_id = 1 ∧ e.product_id = 1 ∧ e.quantity = 2) ∧
    stock_of dbC9 1 = 3 ∧
    stock_of dbC9 1 < 2 + 4 ∧
    add_to_cart dbC9 "u" { product_id := 1, quantity := 4 } =
      .error (.insufficientStockAdd 3 4) ∧
    (∀ a b c : ℤ, add_to_cart dbC9 "u" { product_id := 1, quantity := 4 } ≠
      .error (.insufficientStockAddExisting a b c)) := by
  refine ⟨by decide, by decide, by decide, by decide, ?_⟩
  intro a b c h
  rw [show add_to_cart dbC9 "u" { product_id := 1, quantity := 4 } =
      .error (.insufficientStockAdd 3 4) from by decide] at h
  cases h

/-- C9 amended: adding a product that is already in the user's cart never
creates a second row: when `stock >= existing + requested` the single
existing row's quantity becomes the sum (and the row count for the pair is
unchanged); when the merged check fails after the plain check passed
(`requested <= stock < existing + requested`) the error reports available,
in-cart and requested amounts; when already `stock < requested` the error
reports only available and requested. -/
theorem claim_C9_add_merges {db : DB} {uid : String} {cart : Cart} {e : CartItem}
    {p : Product} {req : AddToCartRequest}
    (hc : db.carts.find? (fun c => c.user_id == uid) = some cart)
    (hp : find_product db req.product_id = some p)
    (he : db.cartItems.find? (fun ci =>
      ci.cart_id == cart.id && ci.product_id == req.product_id) = some e)
    (hepos : 0 ≤ e.quantity) :
    (p.stock < req.quantity →
      add_to_cart db uid req = .error (.insufficientStockAdd p.stock req.quantity)) ∧
    (req.quantity ≤ p.stock → p.stock < e.quantity + req.quantity →
      add_to_cart db uid req =
        .error (.insufficientStockAddExisting p.stock e.quantity req.quantity)) ∧
    (e.quantity + req.quantity ≤ p.stock →
      ∃ db2, add_to_cart db uid req = .ok db2 ∧
        db2.cartItems.find? (fun ci =>
          ci.cart_id == cart.id && ci.product_id == req.product_id) =
            some { e with quantity := e.quantity + req.quantity } ∧
        (db2.cartItems.filter (fun ci =>
          ci.cart_id == cart.id && ci.product_id == req.product_id)).length =
          (db.cartItems.filter (fun ci =>
            ci.cart_id == cart.id && ci.product_id == req.product_id)).length ∧
        db2.products = db.products) := by
  have hgoc : get_or_create_cart db uid = (db, cart) := by
    unfold get_or_create_cart
    rw [hc]
  refine ⟨?_, ?_, ?_⟩
  · intro hlt
    unfold add_to_cart
    rw [hp]
    simp only []
    rw [if_pos hlt]
  · intro hle hlt
    unfold add_to_cart
    rw [hp]
    simp only []
    rw [if_neg (not_lt.mpr hle), hgoc]
    simp only []
    rw [he]
    simp only []
    rw [if_pos hlt]
  · intro hle
    have hq : ¬(p.stock < req.quantity) := by
      apply not_lt.mpr
      have h1 : req.quantity ≤ e.quantity + req.quantity := by linarith
      exact le_trans h1 hle
    have hres : add_to_cart db uid req = .ok { db with cartItems :=
        (update_first
          (fun ci => ci.cart_id == cart.id && ci.product_id == req.product_id)
          (fun ci => { ci with quantity := e.quantity + req.quantity })
          db.cartItems) } := by
      unfold add_to_cart
      rw [hp]
      simp only []
      rw [if_neg hq, hgoc]
      simp only []
      rw [he]
      simp only []
      rw [if_neg (not_lt.mpr hle)]
    refine ⟨_, hres, ?_, ?_, rfl⟩
    · exact find?_update_first_same
        (f := fun ci => { ci with quantity := e.quantity + req.quantity })
        (fun a ha => ha) he
    · exact @filter_update_first_length CartItem
        (fun ci => ci.cart_id == cart.id && ci.product_id == req.product_id)
        (fun ci => { ci with quantity := e.quantity + req.quantity })
        (fun a ha => ha) db.cartItems

/-- C9 witness: adding one more unit of the product already in the cart
(2 in cart, stock 3) merges into the single row with quantity 3, leaves
the per-pair row count at one, and does not touch the products. -/
theorem claim_C9_witness :
    ∃ db2, add_to_cart dbC9 "u" { product_id := 1, quantity := 1 } = .ok db2 ∧
      db2.cartItems.find? (fun ci => ci.cart_id == cartU.id && ci.product_id == 1) =
        some { cart_id := 1, product_id := 1, quantity := 3 } ∧
      (db2.cartItems.filter (fun ci =>
        ci.cart_id == cartU.id && ci.product_id == 1)).length =
        (dbC9.cartItems.filter (fun ci =>
          ci.cart_id == cartU.id && ci.product_id == 1)).length ∧
      db2.products = dbC9.products :=
  (@claim_C9_add_merges dbC9 "u" cartU
    { cart_id := 1, product_id := 1, quantity := 2 }
    { id := 1, name := "A", price := 10, stock := 3 }
    { product_id := 1, quantity := 1 }
    (by decide) (by decide) (by decide) (by decide)).2.2 (by decide)

/-- C10: for every `reorder` call by the order's owner the operation
succeeds — no stock error is ever raised, unlike order creation — the
product stocks are untouched, and every cart row it creates or updates ends
with quantity at most the product's current stock (vanished products are
skipped, zero-stock products are skipped and recorded, excess quantities
are silently capped, merges are clamped to the stock): every row of the
resulting cart table either already existed or is bounded by the current
stock. -/
theorem claim_C10_reorder_caps {db : DB} {oid : Nat} {uid : String} {o : Order}
    (hfo : db.orders.find? (fun x => x.id == oid) = some o)
    (hown : o.user_id = uid) :
    ∃ db' res, reorder db oid uid = .ok (db', res) ∧
      db'.products = db.products ∧
      db'.orders = db.orders ∧
      db'.orderItems = db.orderItems ∧
      ∀ ci ∈ db'.cartItems,
        ci ∈ db.cartItems ∨ ci.quantity ≤ stock_of db ci.product_id := by
  rcases get_or_create_fields db uid with ⟨hgp, hgci, hgo, hgoi⟩
  have hres : reorder db oid uid = .ok
      ({ (get_or_create_cart db uid).1 with cartItems :=
          (((get_or_create_cart db uid).1.orderItems.filter
              (fun oi => oi.order_id == oid)).foldl
            (reorder_step (get_or_create_cart db uid).1.products
              (get_or_create_cart db uid).2.id)
            { cart_items := (get_or_create_cart db uid).1.cartItems,
              added_items := [], out_of_stock_items := [],
              insufficient_stock_items := [] }).cart_items },
        { success := !(((get_or_create_cart db uid).1.orderItems.filter
              (fun oi => oi.order_id == oid)).foldl
            (reorder_step (get_or_create_cart db uid).1.products
              (get_or_create_cart db uid).2.id)
            { cart_items := (get_or_create_cart db uid).1.cartItems,
              added_items := [], out_of_stock_items := [],
              insufficient_stock_items := [] }).added_items.isEmpty,
          added_items := (((get_or_create_cart db uid).1.orderItems.filter
              (fun oi => oi.order_id == oid)).foldl
            (reorder_step (get_or_create_cart db uid).1.products
              (get_or_create_cart db uid).2.id)
            { cart_items := (get_or_create_cart db uid).1.cartItems,
              added_items := [], out_of_stock_items := [],
              insufficient_stock_items := [] }).added_items,
          out_of_stock_items := (((get_or_create_cart db uid).1.orderItems.filter
              (fun oi => oi.order_id == oid)).foldl
            (reorder_step (get_or_create_cart db uid).1.products
              (get_or_create_cart db uid).2.id)
            { cart_items := (get_or_create_cart db uid).1.cartItems,
              added_items := [], out_of_stock_items := [],
              insufficient_stock_items := [] }).out_of_stock_items,
          insufficient_stock_items := (((get_or_create_cart db uid).1.orderItems.filter
              (fun oi => oi.order_id == oid)).foldl
            (reorder_step (get_or_create_cart db uid).1.products
              (get_or_create_cart db uid).2.id)
            { cart_items := (get_or_create_cart db uid).1.cartItems,
              added_items := [], out_of_stock_items := [],
              insufficient_stock_items := [] }).insufficient_stock_items }) := by
    unfold reorder
    rw [hfo]
    simp only []
    rw [if_neg (by simp [hown])]
  refine ⟨_, _, hres, hgp, hgo, hgoi, ?_⟩
  intro ci hci
  have hinv := @reorder_fold_inv
    ((get_or_create_cart db uid).1.products)
    ((get_or_create_cart db uid).2.id)
    db.cartItems
    ((get_or_create_cart db uid).1.orderItems.filter
      (fun oi => oi.order_id == oid))
    ({ cart_items := (get_or_create_cart db uid).1.cartItems,
       added_items := [], out_of_stock_items := [],
       insufficient_stock_items := [] })
    (by intro x hx; rw [hgci] at hx; exact Or.inl hx)
  have := hinv ci hci
  rcases this with hin | hle
  · exact Or.inl hin
  · right
    rw [hgp] at hle
    exact hle

/-- C10 witness: reordering the delivered order of 5 units against a
current stock of 3 succeeds with no stock error; the resulting cart row is
capped at 3 (at most the stock), and stocks are untouched. -/
theorem claim_C10_witness :
    ∃ db' res, reorder dbC10 1 "u" = .ok (db', res) ∧
      db'.products = dbC10.products ∧
      db'.orders = dbC10.orders ∧
      db'.orderItems = dbC10.orderItems ∧
      ∀ ci ∈ db'.cartItems,
        ci ∈ dbC10.cartItems ∨ ci.quantity ≤ stock_of dbC10 ci.product_id :=
  @claim_C10_reorder_caps dbC10 1 "u" ordC10
    (by decide) (by decide)

end Shop
